import Mathlib

/-!
Verification development for the session-length / performance-trend analytics
engine of the `refleks` repository.

The embedding covers `frontend/src/lib/analysis/sessionLength.ts` and the
highscore forecaster (`collectScenarioHistory`, `quantile`, `weightedLinReg`,
`fitDeltaVsPause`, `findOptimalPauseAndRuns`, `predictNextHighscore`).

Modelling conventions:
* JavaScript numbers are idealized as exact rationals (`ℚ`); floating-point
  rounding and overflow are outside the model.  Timestamps are epoch
  milliseconds as rationals.
* A stats-map field that may be absent or non-numeric is modelled by `JSV`
  (absent / present-but-not-finite / finite value); `Number(x ?? 0)` followed
  by a `Number.isFinite` guard collapses this to a rational exactly as the
  source does.
* The transcendental library functions `Math.exp`, `Math.log10`,
  `Math.pow(10,-)`, `Math.pow(0.5,-)` and `Math.sqrt` are finite-precision
  number-to-number functions in JS; they are threaded through as an explicit
  `RealOps` parameter, so every definition stays executable and every theorem
  holds for the actual library functions in particular.
* `Array.prototype.sort` with comparator `(a, b) => a.t - b.t` is a stable
  sort (ECMAScript 2019), modelled by `List.insertionSort` with the
  corresponding `≤` relation, which is stable.
* `Date.now()` is threaded through as an explicit `now : ℚ` parameter.
-/

namespace Refleks

/-- Field of a loosely-typed stats map: absent, present but not a finite
number (non-numeric string, `NaN`, `±Infinity`), or a finite number. -/
inductive JSV where
  | absent : JSV
  | nonfinite : JSV
  | num (q : ℚ) : JSV
deriving DecidableEq

/-- Metric selector of `sessionLength.ts` (`'score' | 'acc'`). -/
inductive Metric where
  | score : Metric
  | acc : Metric
deriving DecidableEq

/-- Record projection seen by `sessionLength.ts`: the `Score` and `Accuracy`
stats fields. -/
structure SLRecord where
  scoreF : JSV
  accF : JSV
deriving DecidableEq

/-- Embeds `metricOf` (sessionLength.ts lines 7-15).
`Number(rec.stats['Score'] ?? 0)` yields `0` for an absent field and a
non-finite number for a non-numeric one; the `Number.isFinite` guard then
returns the value or `0`.  For `'acc'` the value is scaled by 100. -/
def metricOf (rec : SLRecord) (metric : Metric) : ℚ :=
  match metric with
  | .score =>
    match rec.scoreF with
    | .absent => 0
    | .nonfinite => 0
    | .num q => q
  | .acc =>
    match rec.accF with
    | .absent => 0
    | .nonfinite => 0
    | .num q => q * 100

/-- Embeds `Math.max(...vals)` for a list of numbers; the sources only apply
it to non-empty lists (the empty case, `-Infinity` in JS, is guarded away). -/
def maxQ : List ℚ → ℚ
  | [] => 0
  | x :: xs => xs.foldl max x

/-- Embeds `runs.reduce((m, r) => Math.max(m, r.length), 0)`. -/
def maxLenOf (runs : List (List SLRecord)) : ℕ :=
  runs.foldl (fun m r => max m r.length) 0

/-- Metric values at within-session index `j`: the inner loop of
`expectedByIndex` (`if (j < sessRuns.length) vals.push(...)`). -/
def valsAt (runs : List (List SLRecord)) (metric : Metric) (j : ℕ) : List ℚ :=
  runs.filterMap (fun sessRuns => (sessRuns[j]?).map (fun r => metricOf r metric))

/-- Embeds `expectedByIndex` (sessionLength.ts lines 44-59).  The standard
deviation applies the ambient `Math.sqrt`, passed as `sqrtF`. -/
def expectedByIndex (sqrtF : ℚ → ℚ) (runs : List (List SLRecord)) (metric : Metric) :
    List ℚ × List ℚ :=
  let maxLen := maxLenOf runs
  let mean := (List.range maxLen).map (fun j =>
    let vals := valsAt runs metric j
    if vals.length = 0 then 0 else vals.sum / vals.length)
  let std := (List.range maxLen).map (fun j =>
    let vals := valsAt runs metric j
    let m := if vals.length = 0 then 0 else vals.sum / vals.length
    let variance :=
      if vals.length = 0 then 0
      else (vals.map (fun b => (b - m) * (b - m))).sum / vals.length
    sqrtF variance)
  (mean, std)

/-- Per-session best over the first `min(L, sessRuns.length)` runs: the inner
loop of `expectedBestVsLength`. -/
def bestsAt (runs : List (List SLRecord)) (metric : Metric) (L : ℕ) : List ℚ :=
  runs.filterMap (fun sessRuns =>
    let vals := (sessRuns.take (min L sessRuns.length)).map (fun r => metricOf r metric)
    if vals.length = 0 then none else some (maxQ vals))

/-- Embeds `expectedBestVsLength` (sessionLength.ts lines 61-74): entry `L-1`
of the curve is the average over sessions of the best metric value among the
session's first `min(L, length)` runs. -/
def expectedBestVsLength (runs : List (List SLRecord)) (metric : Metric) : List ℚ :=
  (List.range (maxLenOf runs)).map (fun Li =>
    let bests := bestsAt runs metric (Li + 1)
    if bests.length = 0 then 0 else bests.sum / bests.length)

/-! Support lemmas for `maxQ`. -/

lemma foldl_max_mem (xs : List ℚ) (a : ℚ) : xs.foldl max a = a ∨ xs.foldl max a ∈ xs := by
  induction xs generalizing a with
  | nil => exact Or.inl rfl
  | cons y ys ih =>
    rcases ih (max a y) with h | h
    · rcases max_choice a y with h' | h'
      · exact Or.inl (by rw [List.foldl_cons, h, h'])
      · exact Or.inr (by rw [List.foldl_cons, h, h']; exact List.mem_cons_self _ _)
    · exact Or.inr (List.mem_cons_of_mem _ h)

lemma le_foldl_max_init (xs : List ℚ) (a : ℚ) : a ≤ xs.foldl max a := by
  induction xs generalizing a with
  | nil => exact le_refl a
  | cons y ys ih => exact le_trans (le_max_left a y) (ih (max a y))

lemma le_foldl_max_of_mem {xs : List ℚ} {x : ℚ} (a : ℚ) (hx : x ∈ xs) :
    x ≤ xs.foldl max a := by
  induction xs generalizing a with
  | nil => cases hx
  | cons y ys ih =>
    rcases List.mem_cons.mp hx with rfl | h
    · exact le_trans (le_max_right a x) (le_foldl_max_init ys (max a x))
    · exact ih (max a y) h

lemma maxQ_mem {l : List ℚ} (h : l ≠ []) : maxQ l ∈ l := by
  cases l with
  | nil => exact absurd rfl h
  | cons x xs =>
    rcases foldl_max_mem xs x with h' | h'
    · rw [maxQ, h']; exact List.mem_cons_self _ _
    · exact List.mem_cons_of_mem _ h'

lemma le_maxQ {l : List ℚ} {x : ℚ} (hx : x ∈ l) : x ≤ maxQ l := by
  cases l with
  | nil => cases hx
  | cons y ys =>
    rcases List.mem_cons.mp hx with rfl | h
    · exact le_foldl_max_init ys x
    · exact le_foldl_max_of_mem y h

lemma maxQ_le_maxQ {l₁ l₂ : List ℚ} (hne : l₁ ≠ []) (hsub : l₁ ⊆ l₂) :
    maxQ l₁ ≤ maxQ l₂ :=
  le_maxQ (hsub (maxQ_mem hne))

/-! Reshaping `bestsAt` so that the contributing sessions are visibly the same
for every `L ≥ 1`. -/

lemma bestsAt_eq_filter (runs : List (List SLRecord)) (metric : Metric) (L : ℕ)
    (hL : 1 ≤ L) :
    bestsAt runs metric L =
      (runs.filter (fun s => !s.isEmpty)).map
        (fun s => maxQ ((s.take (min L s.length)).map (fun r => metricOf r metric))) := by
  induction runs with
  | nil => rfl
  | cons s rest ih =>
    rw [bestsAt, List.filterMap_cons]
    by_cases hs : s.isEmpty
    · have hnil : s = [] := List.isEmpty_iff.mp hs
      subst hnil
      simp only [List.take_nil, List.map_nil, List.length_nil, if_pos rfl]
      rw [List.filter_cons]
      simp only [List.isEmpty_nil, Bool.not_true, Bool.false_eq_true, if_false]
      exact ih
    · have hlen : s.length ≠ 0 := by
        intro h0
        exact hs (List.isEmpty_iff.mpr (List.length_eq_zero.mp h0))
      have hmin : min L s.length ≠ 0 := by
        rcases Nat.eq_zero_or_pos (min L s.length) with h0 | hpos
        · rcases Nat.min_eq_zero_iff.mp h0 with h | h
          · omega
          · exact absurd h hlen
        · omega
      have hvals : ((s.take (min L s.length)).map (fun r => metricOf r metric)).length ≠ 0 := by
        rw [List.length_map, List.length_take]
        omega
      rw [if_neg hvals, List.filter_cons]
      simp only [hs, Bool.not_false, if_true, List.map_cons]
      exact congrArg (List.cons _) ih

lemma take_min_subset_take_min (s : List SLRecord) (L : ℕ) :
    s.take (min L s.length) ⊆ s.take (min (L + 1) s.length) := by
  intro x hx
  have : s.take (min L s.length) <+: s.take (min (L + 1) s.length) :=
    List.take_prefix_take_left s (min_le_min (Nat.le_succ L) (le_refl _))
  exact this.subset hx

lemma bests_nonempty_take {s : List SLRecord} (metric : Metric) (L : ℕ)
    (hs : ¬s.isEmpty = true) (hL : 1 ≤ L) :
    (s.take (min L s.length)).map (fun r => metricOf r metric) ≠ [] := by
  have hlen : s.length ≠ 0 := by
    intro h0
    exact hs (List.isEmpty_iff.mpr (List.length_eq_zero.mp h0))
  intro h
  have := congrArg List.length h
  rw [List.length_map, List.length_take, List.length_nil] at this
  omega

/-- Claim C2 (**Best-of-length monotonicity**): for every list of per-session
run lists and either metric, the `expectedBestVsLength` curve is non-decreasing
in `L`: adjacent entries satisfy `curve[L-1] ≤ curve[L]`. -/
theorem C2_best_of_length_monotone (runs : List (List SLRecord)) (metric : Metric)
    (i : ℕ) (h : i + 1 < (expectedBestVsLength runs metric).length) :
    (expectedBestVsLength runs metric)[i] ≤ (expectedBestVsLength runs metric)[i + 1] := by
  have hlen : (expectedBestVsLength runs metric).length = maxLenOf runs := by
    simp [expectedBestVsLength]
  have hi1 : i + 1 < maxLenOf runs := by rwa [hlen] at h
  have hi : i < maxLenOf runs := Nat.lt_of_succ_lt hi1
  simp only [expectedBestVsLength, List.getElem_map, List.getElem_range]
  rw [bestsAt_eq_filter runs metric (i + 1) (by omega),
      bestsAt_eq_filter runs metric (i + 1 + 1) (by omega)]
  set F := runs.filter (fun s => !s.isEmpty) with hF
  rcases List.eq_nil_or_concat F with hnil | _
  · rw [hnil]
    simp
  · have hlen2 : ∀ (g : List SLRecord → ℚ), (F.map g).length = F.length := by
      intro g; exact List.length_map _ _
    by_cases hK : F.length = 0
    · rw [if_pos (by rw [hlen2]; exact hK), if_pos (by rw [hlen2]; exact hK)]
    · rw [if_neg (by rw [hlen2]; exact hK), if_neg (by rw [hlen2]; exact hK)]
      rw [hlen2, hlen2]
      have hKpos : (0 : ℚ) < (F.length : ℚ) := by
        exact_mod_cast Nat.pos_of_ne_zero hK
      rw [div_le_div_iff_of_pos_right hKpos]
      apply List.sum_le_sum
      intro s hs
      have hsne : ¬s.isEmpty = true := by
        have := List.of_mem_filter hs
        simpa using this
      exact maxQ_le_maxQ (bests_nonempty_take metric (i + 1) hsne (by omega))
        (List.map_subset _ (take_min_subset_take_min s (i + 1)))

/-! Embedding of `recommendLengths` (sessionLength.ts lines 145-242) and its
helper `median` (lines 244-250). -/

/-- Embeds `median`: the `Number.isFinite` filter is the identity in the
exact-rational model; the sort is a JS numeric sort. -/
def median (arr : List ℚ) : ℚ :=
  let v := List.insertionSort (fun a b : ℚ => a ≤ b) arr
  let n := v.length
  if n = 0 then 0
  else
    let mid := n / 2
    if n % 2 = 1 then v.getD mid 0 else (v.getD (mid - 1) 0 + v.getD mid 0) / 2

/-- JS `x || 1` for a number `x` known not to be `NaN`: `1` when `x` is zero. -/
def jsOrOne (q : ℚ) : ℚ := if q = 0 then 1 else q

/-- First-strict-maximum fold shared by the `bestVal/bestL` loops of
`recommendLengths`: the accumulator starts at `-Infinity` (here `none`, which
the first finite value always beats), and only a strictly larger value
(`v > bestVal`) replaces the current best. -/
def bestFold (l : List (ℕ × ℚ)) : Option (ℚ × ℕ) :=
  l.foldl (fun acc Lv =>
    match acc with
    | none => some (Lv.2, Lv.1)
    | some (bv, bi) => if Lv.2 > bv then some (Lv.2, Lv.1) else some (bv, bi)) none

/-- Per-length statistics (`LengthStats`, sessionLength.ts lines 76-84). -/
structure LengthStats where
  mean : List ℚ
  min : List ℚ
  max : List ℚ
  std : List ℚ
  p10 : List ℚ
  p90 : List ℚ
  count : List ℕ
deriving DecidableEq

/-- Output record of `recommendLengths`. -/
structure LengthRecommendations where
  warmupRuns : ℕ
  optimalAvgRuns : ℕ
  optimalConsistentRuns : ℕ
  optimalHighscoreRuns : ℕ
deriving DecidableEq

/-- Trailing-window condition of the consistency loops: `slice(L-k, L)` with
`k = min(3, L)`, empty window giving `wMean = Infinity` which never satisfies
`wMean <= med`. -/
def windowBelow (arr : List ℚ) (med : ℚ) (L : ℕ) : Bool :=
  let k := min 3 L
  let window := (arr.drop (L - k)).take k
  decide (window.length ≠ 0) && decide (window.sum / (window.length : ℚ) ≤ med)

/-- Models a `for`-loop running over the `c` indices `s, s+1, …, s+c-1` that
`break`s at the first index satisfying `p`, yielding `f` of that index, and
yields the default `d` when the loop completes without breaking. -/
def loopFirst (s c : ℕ) (p : ℕ → Bool) (f : ℕ → ℕ) (d : ℕ) : ℕ :=
  (((List.range' s c).find? p).map f).getD d

/-- Embeds `recommendLengths` (sessionLength.ts lines 145-242).  Loops with
`break` become `loopFirst` over the same index ranges; the `bestVal/bestL`
accumulations with `-Infinity` start become `bestFold`.  `x || 0` on an
in-range finite array read is the identity and `arr[i] ?? d` becomes `getD`. -/
def recommendLengths (byIndex : List ℚ × List ℚ) (bestVsL : List ℚ)
    (lengthStats : Option LengthStats) : LengthRecommendations :=
  let mean := byIndex.1
  let std := byIndex.2
  let n := mean.length
  -- Warm-up: first index where slope becomes small and std drops near median
  let slopes := (List.range (n - 1)).map (fun i => mean.getD (i + 1) 0 - mean.getD i 0)
  let absSlopes := slopes.map (fun s => |s|)
  let slopeMed := median absSlopes
  let stdMed := median std
  let warm := loopFirst 1 (n - 1) (fun i =>
    decide (|slopes.getD (i - 1) 0| ≤ slopeMed) && decide (std.getD i stdMed ≤ stdMed))
    (fun i => i + 1) 1
  -- Optimal average
  let avgL :=
    match lengthStats with
    | some ls =>
      if ls.mean.length ≠ 0 then
        let bestVal := ((bestFold ((List.range ls.mean.length).map
          (fun i => (i, ls.mean.getD i 0)))).map Prod.fst).getD 0
        let eps := 1 / 100 * jsOrOne |bestVal|
        loopFirst 1 ls.mean.length (fun L =>
          decide (bestVal - ls.mean.getD (L - 1) 0 ≤ eps)) (fun L => L) 1
      else 1
    | none =>
      let cum := (List.range n).map (fun k => (mean.take (k + 1)).sum / ((k : ℚ) + 1))
      let bestPair := bestFold ((List.range n).map (fun k => (k + 1, cum.getD k 0)))
      let bestVal := (bestPair.map Prod.fst).getD 0
      let bestL := (bestPair.map Prod.snd).getD 1
      let eps := 1 / 100 * jsOrOne bestVal
      loopFirst 1 n (fun L =>
        decide (bestVal - cum.getD (L - 1) 0 ≤ eps)) (fun L => L) bestL
  -- Consistency
  let consL :=
    match lengthStats with
    | some ls =>
      if ls.mean.length ≠ 0 then
        let variability := (List.range ls.mean.length).map
          (fun i => max 0 (ls.p90.getD i 0 - ls.p10.getD i 0))
        let varMed := median variability
        loopFirst 2 (variability.length - 1)
          (fun L => windowBelow variability varMed L) (fun L => L) n
      else n
    | none =>
      loopFirst 2 (n - 1) (fun L => windowBelow std stdMed L) (fun L => L) n
  -- Highscore: smallest L within 1% of curve max with marginal gain < 2%
  let m := bestVsL.length
  let hsPair := bestFold ((List.range m).map (fun k => (k + 1, bestVsL.getD k 0)))
  let hsBestV := (hsPair.map Prod.fst).getD 0
  let hsBestL := (hsPair.map Prod.snd).getD 1
  let hsEps := 1 / 100 * jsOrOne hsBestV
  let hsL := loopFirst 1 m (fun L =>
    let v := bestVsL.getD (L - 1) 0
    let next := bestVsL.getD L v
    let marginal := if hsBestV = 0 then 0 else (next - v) / hsBestV
    decide (hsBestV - v ≤ hsEps) && decide (marginal < 2 / 100)) (fun L => L) hsBestL
  { warmupRuns := warm, optimalAvgRuns := avgL,
    optimalConsistentRuns := consL, optimalHighscoreRuns := hsL }

/-! Bounds support lemmas for `recommendLengths`. -/

lemma bestFold_mem {v : ℚ} {i : ℕ} :
    ∀ (l : List (ℕ × ℚ)) (acc : Option (ℚ × ℕ)),
      l.foldl (fun acc Lv =>
        match acc with
        | none => some (Lv.2, Lv.1)
        | some (bv, bi) => if Lv.2 > bv then some (Lv.2, Lv.1) else some (bv, bi)) acc
        = some (v, i) →
      acc = some (v, i) ∨ (i, v) ∈ l := by
  intro l
  induction l with
  | nil => intro acc h; exact Or.inl h
  | cons p rest ih =>
    intro acc h
    rw [List.foldl_cons] at h
    rcases p with ⟨pk, pv⟩
    rcases ih _ h with h' | h'
    · match acc with
      | none =>
        simp only [] at h'
        obtain ⟨h1, h2⟩ : pv = v ∧ pk = i := by simpa using h'
        exact Or.inr (by rw [← h1, ← h2]; exact List.mem_cons_self _ _)
      | some (bv, bi) =>
        simp only [] at h'
        by_cases hgt : pv > bv
        · rw [if_pos hgt] at h'
          obtain ⟨h1, h2⟩ : pv = v ∧ pk = i := by simpa using h'
          exact Or.inr (by rw [← h1, ← h2]; exact List.mem_cons_self _ _)
        · rw [if_neg hgt] at h'
          exact Or.inl h'
    · exact Or.inr (List.mem_cons_of_mem _ h')

lemma bestFold_eq_some_mem {l : List (ℕ × ℚ)} {v : ℚ} {i : ℕ}
    (h : bestFold l = some (v, i)) : (i, v) ∈ l := by
  rcases bestFold_mem l none h with h' | h'
  · cases h'
  · exact h'

lemma loopFirst_bound {s c d lo hi : ℕ} (p : ℕ → Bool) (f : ℕ → ℕ)
    (hd : lo ≤ d ∧ d ≤ hi) (hf : ∀ i, s ≤ i → i < s + c → lo ≤ f i ∧ f i ≤ hi) :
    lo ≤ loopFirst s c p f d ∧ loopFirst s c p f d ≤ hi := by
  rw [loopFirst]
  rcases hfind : (List.range' s c).find? p with _ | i
  · simpa using hd
  · have hmem := List.mem_of_find?_eq_some hfind
    have hiv := List.mem_range'_1.mp hmem
    simpa using hf i hiv.1 hiv.2

/-- Bounds for the first-argmax index over values `(k+1, g k)` for `k < n`. -/
lemma bestFold_snd_bound (n : ℕ) (g : ℕ → ℚ) (hn : 1 ≤ n) :
    1 ≤ ((bestFold ((List.range n).map (fun k => (k + 1, g k)))).map Prod.snd).getD 1 ∧
      ((bestFold ((List.range n).map (fun k => (k + 1, g k)))).map Prod.snd).getD 1 ≤ n := by
  rcases hbf : bestFold ((List.range n).map (fun k => (k + 1, g k))) with _ | p
  · simp
    omega
  · rcases p with ⟨v, i⟩
    have hmem := bestFold_eq_some_mem hbf
    rcases List.mem_map.mp hmem with ⟨k, hk, hpair⟩
    have hkn : k < n := List.mem_range.mp hk
    have hik : i = k + 1 := by
      have := congrArg Prod.fst hpair
      simpa using this.symm
    simp only [Option.map_some', Option.getD_some]
    omega

/-- Claim C4 (**Recommendation bounds**): for a non-empty `byIndex` input
(mean and std arrays of length `n ≥ 1`) with matching best-of-length curve of
length `n`, all four fields of `recommendLengths` are (natural-number)
integers in `[1, n]`. -/
theorem C4_recommendation_bounds (mean std bestVsL : List ℚ) (n : ℕ)
    (hmean : mean.length = n) (hstd : std.length = n) (hcurve : bestVsL.length = n)
    (hn : 1 ≤ n) :
    (1 ≤ (recommendLengths (mean, std) bestVsL none).warmupRuns ∧
      (recommendLengths (mean, std) bestVsL none).warmupRuns ≤ n) ∧
    (1 ≤ (recommendLengths (mean, std) bestVsL none).optimalAvgRuns ∧
      (recommendLengths (mean, std) bestVsL none).optimalAvgRuns ≤ n) ∧
    (1 ≤ (recommendLengths (mean, std) bestVsL none).optimalConsistentRuns ∧
      (recommendLengths (mean, std) bestVsL none).optimalConsistentRuns ≤ n) ∧
    (1 ≤ (recommendLengths (mean, std) bestVsL none).optimalHighscoreRuns ∧
      (recommendLengths (mean, std) bestVsL none).optimalHighscoreRuns ≤ n) := by
  refine ⟨?_, ?_, ?_, ?_⟩
  · show 1 ≤ loopFirst 1 (mean.length - 1) _ (fun i => i + 1) 1 ∧
      loopFirst 1 (mean.length - 1) _ (fun i => i + 1) 1 ≤ n
    exact loopFirst_bound _ _ ⟨le_refl 1, hn⟩ (fun i h1 h2 => by omega)
  · show 1 ≤ loopFirst 1 mean.length _ (fun L => L) _ ∧
      loopFirst 1 mean.length _ (fun L => L) _ ≤ n
    refine loopFirst_bound _ _ ?_ (fun i h1 h2 => by omega)
    obtain ⟨h1, h2⟩ := bestFold_snd_bound mean.length
      (fun k => ((List.range mean.length).map
        (fun k => (mean.take (k + 1)).sum / ((k : ℚ) + 1))).getD k 0)
      (by omega)
    exact ⟨h1, le_trans h2 (le_of_eq hmean)⟩
  · show 1 ≤ loopFirst 2 (mean.length - 1) _ (fun L => L) mean.length ∧
      loopFirst 2 (mean.length - 1) _ (fun L => L) mean.length ≤ n
    exact loopFirst_bound _ _ ⟨by omega, by omega⟩ (fun i h1 h2 => by omega)
  · show 1 ≤ loopFirst 1 bestVsL.length _ (fun L => L) _ ∧
      loopFirst 1 bestVsL.length _ (fun L => L) _ ≤ n
    refine loopFirst_bound _ _ ?_ (fun i h1 h2 => by omega)
    obtain ⟨h1, h2⟩ := bestFold_snd_bound bestVsL.length (fun k => bestVsL.getD k 0) (by omega)
    exact ⟨h1, le_trans h2 (le_of_eq hcurve)⟩

/-- Witness for C4 at a concrete input. -/
theorem C4_recommendation_bounds_witness :
    ([(10 : ℚ), 20, 15].length = 3 ∧ [(2 : ℚ), 1, 1].length = 3 ∧
      [(10 : ℚ), 20, 20].length = 3 ∧ 1 ≤ 3) ∧
    ((1 ≤ (recommendLengths ([(10 : ℚ), 20, 15], [(2 : ℚ), 1, 1])
          [(10 : ℚ), 20, 20] none).warmupRuns ∧
      (recommendLengths ([(10 : ℚ), 20, 15], [(2 : ℚ), 1, 1])
          [(10 : ℚ), 20, 20] none).warmupRuns ≤ 3) ∧
     (1 ≤ (recommendLengths ([(10 : ℚ), 20, 15], [(2 : ℚ), 1, 1])
          [(10 : ℚ), 20, 20] none).optimalAvgRuns ∧
      (recommendLengths ([(10 : ℚ), 20, 15], [(2 : ℚ), 1, 1])
          [(10 : ℚ), 20, 20] none).optimalAvgRuns ≤ 3) ∧
     (1 ≤ (recommendLengths ([(10 : ℚ), 20, 15], [(2 : ℚ), 1, 1])
          [(10 : ℚ), 20, 20] none).optimalConsistentRuns ∧
      (recommendLengths ([(10 : ℚ), 20, 15], [(2 : ℚ), 1, 1])
          [(10 : ℚ), 20, 20] none).optimalConsistentRuns ≤ 3) ∧
     (1 ≤ (recommendLengths ([(10 : ℚ), 20, 15], [(2 : ℚ), 1, 1])
          [(10 : ℚ), 20, 20] none).optimalHighscoreRuns ∧
      (recommendLengths ([(10 : ℚ), 20, 15], [(2 : ℚ), 1, 1])
          [(10 : ℚ), 20, 20] none).optimalHighscoreRuns ≤ 3)) :=
  ⟨⟨rfl, rfl, rfl, by omega⟩,
    C4_recommendation_bounds [(10 : ℚ), 20, 15] [(2 : ℚ), 1, 1] [(10 : ℚ), 20, 20] 3
      rfl rfl rfl (by omega)⟩

/-- Witness for C2 at the specification's own example sessions
`[[10,20,15]]` and `[[5,25]]`. -/
theorem C2_best_of_length_monotone_witness :
    0 + 1 < (expectedBestVsLength
      [[⟨.num 10, .absent⟩, ⟨.num 20, .absent⟩, ⟨.num 15, .absent⟩],
        [⟨.num 5, .absent⟩, ⟨.num 25, .absent⟩]] .score).length ∧
    (expectedBestVsLength
      [[⟨.num 10, .absent⟩, ⟨.num 20, .absent⟩, ⟨.num 15, .absent⟩],
        [⟨.num 5, .absent⟩, ⟨.num 25, .absent⟩]] .score).getD 0 0 ≤
    (expectedBestVsLength
      [[⟨.num 10, .absent⟩, ⟨.num 20, .absent⟩, ⟨.num 15, .absent⟩],
        [⟨.num 5, .absent⟩, ⟨.num 25, .absent⟩]] .score).getD 1 0 := by
  have h : 0 + 1 < (expectedBestVsLength
      [[⟨.num 10, .absent⟩, ⟨.num 20, .absent⟩, ⟨.num 15, .absent⟩],
        [⟨.num 5, .absent⟩, ⟨.num 25, .absent⟩]] .score).length := by decide
  refine ⟨h, ?_⟩
  have hmono := C2_best_of_length_monotone
    [[⟨.num 10, .absent⟩, ⟨.num 20, .absent⟩, ⟨.num 15, .absent⟩],
      [⟨.num 5, .absent⟩, ⟨.num 25, .absent⟩]] .score 0 h
  rw [List.getD_eq_getElem _ _ (by omega), List.getD_eq_getElem _ _ h]
  exact hmono

/-! Non-finiteness tracking model for claim C8.  A JS number that may fail to
be finite is modelled as `Option ℚ`: `none` stands for any non-finite result
(`NaN` or `±Infinity`), `some q` for the finite value `q`.  Sums and products
of finite rationals are represented exactly (floating-point overflow is
outside the model); the operations that can produce a non-finite value from
finite operands — division and `Math.sqrt` — are checked. -/

/-- Checked division: a zero denominator yields a non-finite value
(`NaN` for `0/0`, `±Infinity` otherwise), and non-finite operands
propagate. -/
def jdivF (a b : Option ℚ) : Option ℚ :=
  a.bind (fun x => b.bind (fun y => if y = 0 then none else some (x / y)))

/-- Checked `Math.sqrt` for the ambient square-root function `s`:
a negative argument yields `NaN`, and non-finite arguments propagate. -/
def jsqrtF (s : ℚ → ℚ) (a : Option ℚ) : Option ℚ :=
  a.bind (fun q => if q < 0 then none else some (s q))

/-- JS `t > 0` on a possibly non-finite `t`: `NaN > 0` is `false` (the only
non-finite value reaching this comparison in the sources). -/
def jGT0 : Option ℚ → Bool
  | some t => decide (0 < t)
  | none => false

/-- Instrumented `expectedByIndex`: same computation as the source with every
division and square root checked. -/
def expectedByIndexF (s : ℚ → ℚ) (runs : List (List SLRecord)) (metric : Metric) :
    List (Option ℚ) × List (Option ℚ) :=
  let maxLen := maxLenOf runs
  let mean := (List.range maxLen).map (fun j =>
    let vals := valsAt runs metric j
    if vals.length = 0 then some 0 else jdivF (some vals.sum) (some (vals.length : ℚ)))
  let std := (List.range maxLen).map (fun j =>
    let vals := valsAt runs metric j
    let m := if vals.length = 0 then some 0
      else jdivF (some vals.sum) (some (vals.length : ℚ))
    let variance := if vals.length = 0 then some 0
      else jdivF (m.map (fun mv => (vals.map (fun b => (b - mv) * (b - mv))).sum))
        (some (vals.length : ℚ))
    jsqrtF s variance)
  (mean, std)

/-- Instrumented `expectedBestVsLength` with the division checked. -/
def expectedBestVsLengthF (runs : List (List SLRecord)) (metric : Metric) :
    List (Option ℚ) :=
  (List.range (maxLenOf runs)).map (fun Li =>
    let bests := bestsAt runs metric (Li + 1)
    if bests.length = 0 then some 0 else jdivF (some bests.sum) (some (bests.length : ℚ)))

/-- Instrumented `weightedLinReg` (part_012 lines 309-339) over finite inputs,
with every division checked and the `ssTot > 0` comparison following JS
semantics on a possibly non-finite operand. -/
def weightedLinRegF (xs ys ws : List ℚ) : Option ℚ × Option ℚ × Option ℚ :=
  let n := min xs.length (min ys.length ws.length)
  if n < 2 then (some 0, some 0, some 0)
  else
    let Sw := ((List.range n).map (fun i => ws.getD i 0)).sum
    let Swx := ((List.range n).map (fun i => ws.getD i 0 * xs.getD i 0)).sum
    let Swy := ((List.range n).map (fun i => ws.getD i 0 * ys.getD i 0)).sum
    let Swxx := ((List.range n).map (fun i => ws.getD i 0 * xs.getD i 0 * xs.getD i 0)).sum
    let Swxy := ((List.range n).map (fun i => ws.getD i 0 * xs.getD i 0 * ys.getD i 0)).sum
    let denom := Sw * Swxx - Swx * Swx
    let b := if denom ≠ 0 then jdivF (some (Sw * Swxy - Swx * Swy)) (some denom) else some 0
    let a := if Sw ≠ 0 then jdivF (b.map (fun bv => Swy - bv * Swx)) (some Sw) else some 0
    let ymean := if Sw ≠ 0 then jdivF (some Swy) (some Sw) else some 0
    let ssRes := a.bind (fun av => b.map (fun bv =>
      ((List.range n).map (fun i =>
        ws.getD i 0 * (ys.getD i 0 - (av + bv * xs.getD i 0)) *
          (ys.getD i 0 - (av + bv * xs.getD i 0)))).sum))
    let ssTot := ymean.map (fun mv =>
      ((List.range n).map (fun i =>
        ws.getD i 0 * (ys.getD i 0 - mv) * (ys.getD i 0 - mv))).sum)
    let r2 := if jGT0 ssTot then (jdivF ssRes ssTot).map (fun q => 1 - q) else some 0
    (a, b, r2)

/-- Instrumented cumulative means of `recommendLengths`
(`sum += mean[L-1] || 0; v = sum / L`). -/
def cumMeansF (mean : List ℚ) : List (Option ℚ) :=
  (List.range mean.length).map (fun k =>
    jdivF (some ((mean.take (k + 1)).sum)) (some ((k : ℚ) + 1)))

/-- Instrumented trailing-window average of the consistency loops; an empty
window yields `Infinity` (`none`). -/
def windowMeanF (arr : List ℚ) (L : ℕ) : Option ℚ :=
  let k := min 3 L
  let window := (arr.drop (L - k)).take k
  if window.length ≠ 0 then jdivF (some window.sum) (some (window.length : ℚ)) else none

lemma jdivF_some_ne {x y : ℚ} (hy : y ≠ 0) : (jdivF (some x) (some y)).isSome := by
  simp [jdivF, hy]

lemma natCast_ne_zero_of_ne {n : ℕ} (h : n ≠ 0) : ((n : ℚ)) ≠ 0 := by
  exact_mod_cast h

/-- Claim C8 (**Degenerate numeric inputs**): for every input — including
empty session lists, all-equal values, and records whose metric fields are
missing or non-numeric — every numeric value produced by `expectedByIndex`,
`expectedBestVsLength`, the weighted regression, and `recommendLengths`'s
internal averages is finite (`isSome` in the non-finiteness tracking model):
every division is guarded and non-finite values never reach the outputs. -/
theorem C8_no_nonfinite_values (s : ℚ → ℚ) (runs : List (List SLRecord)) (metric : Metric)
    (xs ys ws : List ℚ) (mean arr : List ℚ) (L : ℕ) (hL2 : 2 ≤ L) (hLn : L ≤ arr.length) :
    (∀ o ∈ (expectedByIndexF s runs metric).1, o.isSome) ∧
    (∀ o ∈ (expectedByIndexF s runs metric).2, o.isSome) ∧
    (∀ o ∈ expectedBestVsLengthF runs metric, o.isSome) ∧
    ((weightedLinRegF xs ys ws).1.isSome ∧ (weightedLinRegF xs ys ws).2.1.isSome ∧
      (weightedLinRegF xs ys ws).2.2.isSome) ∧
    (∀ o ∈ cumMeansF mean, o.isSome) ∧
    (windowMeanF arr L).isSome := by
  have hdiv : ∀ (x : ℚ) (len : ℕ), len ≠ 0 → (jdivF (some x) (some (len : ℚ))).isSome :=
    fun x len h => jdivF_some_ne (natCast_ne_zero_of_ne h)
  refine ⟨?_, ?_, ?_, ?_, ?_, ?_⟩
  · intro o ho
    simp only [expectedByIndexF, List.mem_map] at ho
    obtain ⟨j, _, rfl⟩ := ho
    by_cases h : (valsAt runs metric j).length = 0
    · simp [h]
    · simp only [if_neg h]
      exact hdiv _ _ h
  · intro o ho
    simp only [expectedByIndexF, List.mem_map] at ho
    obtain ⟨j, _, rfl⟩ := ho
    by_cases h : (valsAt runs metric j).length = 0
    · simp [jsqrtF, h]
    · simp only [if_neg h]
      rcases hm : jdivF (some (valsAt runs metric j).sum)
          (some ((valsAt runs metric j).length : ℚ)) with _ | mv
      · exact absurd hm (by
          have := hdiv (valsAt runs metric j).sum (valsAt runs metric j).length h
          intro hc
          rw [hc] at this
          simp at this)
      · have hvar : (jdivF ((some mv).map
            (fun mv => ((valsAt runs metric j).map (fun b => (b - mv) * (b - mv))).sum))
            (some ((valsAt runs metric j).length : ℚ))) =
            some ((((valsAt runs metric j).map (fun b => (b - mv) * (b - mv))).sum) /
              ((valsAt runs metric j).length : ℚ)) := by
          simp [jdivF, natCast_ne_zero_of_ne h]
        rw [hvar]
        have hnn : 0 ≤ (((valsAt runs metric j).map (fun b => (b - mv) * (b - mv))).sum) /
            ((valsAt runs metric j).length : ℚ) := by
          apply div_nonneg
          · apply List.sum_nonneg
            intro q hq
            rcases List.mem_map.mp hq with ⟨b, _, rfl⟩
            exact mul_self_nonneg _
          · positivity
        simp [jsqrtF, not_lt.mpr hnn]
  · intro o ho
    simp only [expectedBestVsLengthF, List.mem_map] at ho
    obtain ⟨j, _, rfl⟩ := ho
    by_cases h : (bestsAt runs metric (j + 1)).length = 0
    · simp [h]
    · simp only [if_neg h]
      exact hdiv _ _ h
  · rw [weightedLinRegF]
    by_cases hn : min xs.length (min ys.length ws.length) < 2
    · rw [if_pos hn]
      exact ⟨rfl, rfl, rfl⟩
    · rw [if_neg hn]
      simp only []
      set n := min xs.length (min ys.length ws.length) with hnn
      set Sw := ((List.range n).map (fun i => ws.getD i 0)).sum with hSw
      set Swx := ((List.range n).map (fun i => ws.getD i 0 * xs.getD i 0)).sum with hSwx
      set Swy := ((List.range n).map (fun i => ws.getD i 0 * ys.getD i 0)).sum with hSwy
      set Swxx := ((List.range n).map
        (fun i => ws.getD i 0 * xs.getD i 0 * xs.getD i 0)).sum with hSwxx
      set Swxy := ((List.range n).map
        (fun i => ws.getD i 0 * xs.getD i 0 * ys.getD i 0)).sum with hSwxy
      have hb : (if Sw * Swxx - Swx * Swx ≠ 0 then
          jdivF (some (Sw * Swxy - Swx * Swy)) (some (Sw * Swxx - Swx * Swx))
          else some 0).isSome := by
        by_cases hd : Sw * Swxx - Swx * Swx ≠ 0
        · rw [if_pos hd]
          exact jdivF_some_ne hd
        · rw [if_neg hd]
          rfl
      rcases hbv : (if Sw * Swxx - Swx * Swx ≠ 0 then
          jdivF (some (Sw * Swxy - Swx * Swy)) (some (Sw * Swxx - Swx * Swx))
          else some 0) with _ | bv
      · rw [hbv] at hb
        simp at hb
      · have ha : (if Sw ≠ 0 then jdivF ((some bv).map (fun bv => Swy - bv * Swx)) (some Sw)
            else some 0).isSome := by
          by_cases hs0 : Sw ≠ 0
          · rw [if_pos hs0]
            simpa [Option.map_some'] using jdivF_some_ne hs0
          · rw [if_neg hs0]
            rfl
        rcases hav : (if Sw ≠ 0 then jdivF ((some bv).map (fun bv => Swy - bv * Swx)) (some Sw)
            else some 0) with _ | av
        · rw [hav] at ha
          simp at ha
        · refine ⟨rfl, rfl, ?_⟩
          have hym : (if Sw ≠ 0 then jdivF (some Swy) (some Sw) else some 0).isSome := by
            by_cases hs0 : Sw ≠ 0
            · rw [if_pos hs0]
              exact jdivF_some_ne hs0
            · rw [if_neg hs0]
              rfl
          rcases hymv : (if Sw ≠ 0 then jdivF (some Swy) (some Sw) else some 0) with _ | ymv
          · rw [hymv] at hym
            simp at hym
          · simp only [Option.some_bind, Option.map_some']
            rcases hT : jGT0 (some (((List.range n).map (fun i =>
                ws.getD i 0 * (ys.getD i 0 - ymv) * (ys.getD i 0 - ymv))).sum)) with _ | _
            · simp only [hT, Bool.false_eq_true, if_false]
              rfl
            · simp only [hT, if_true]
              have hTpos : (0 : ℚ) < ((List.range n).map (fun i =>
                  ws.getD i 0 * (ys.getD i 0 - ymv) * (ys.getD i 0 - ymv))).sum := by
                have := hT
                simpa [jGT0] using this
              simp only [jdivF, Option.some_bind]
              rw [if_neg (ne_of_gt hTpos)]
              rfl
  · intro o ho
    simp only [cumMeansF, List.mem_map] at ho
    obtain ⟨k, _, rfl⟩ := ho
    apply jdivF_some_ne
    positivity
  · rw [windowMeanF]
    have hk : min 3 L ≠ 0 := by omega
    have hwin : (((arr.drop (L - min 3 L)).take (min 3 L)).length) ≠ 0 := by
      rw [List.length_take, List.length_drop]
      omega
    simp only [if_pos hwin]
    exact hdiv _ _ hwin

/-- Witness for C8 at concrete degenerate inputs (empty sessions, empty
regression inputs, an all-equal mean list, a two-entry window). -/
theorem C8_no_nonfinite_values_witness :
    (2 ≤ 2 ∧ 2 ≤ [(1 : ℚ), 1].length) ∧
    ((∀ o ∈ (expectedByIndexF (fun q => q) [] .score).1, o.isSome) ∧
     (∀ o ∈ (expectedByIndexF (fun q => q) [] .score).2, o.isSome) ∧
     (∀ o ∈ expectedBestVsLengthF [] .score, o.isSome) ∧
     ((weightedLinRegF [] [] []).1.isSome ∧ (weightedLinRegF [] [] []).2.1.isSome ∧
       (weightedLinRegF [] [] []).2.2.isSome) ∧
     (∀ o ∈ cumMeansF [(5 : ℚ), 5], o.isSome) ∧
     (windowMeanF [(1 : ℚ), 1] 2).isSome) :=
  ⟨⟨by omega, by decide⟩,
    C8_no_nonfinite_values (fun q => q) [] .score [] [] [] [(5 : ℚ), 5] [(1 : ℚ), 1] 2
      (by omega) (by decide)⟩

/-! Embedding of the highscore forecaster's record pipeline
(part_012: `getScenarioName`, `parseRecordTimestamp`, `collectScenarioHistory`). -/

/-- Record projection seen by the forecaster.  `scenarioName` is the resolved
`getScenarioName` value (part_012 lines 3-10: a non-blank `Scenario` stats
field, else the file-name head before `" - "`, else the stringified fallback
— pure string manipulation, abstracted as its result).  `scoreF` is the
`Score` stats field.  `parsedTs` is the resolved result of the three-stage
timestamp parse chain of `parseRecordTimestamp` (file-name regex
`YYYY.MM.DD-HH.MM.SS` via local-time `new Date`, `Date Played` plus
`Challenge Start` fields, generic `Date.parse`) — locale-dependent string
parsing abstracted as its resolved epoch-ms value, `none` when every stage
fails. -/
structure SRecord where
  scenarioName : String
  scoreF : JSV
  parsedTs : Option ℚ
deriving DecidableEq

/-- Embeds `parseRecordTimestamp` (part_012 lines 271-307): the resolved
parse-chain value when some stage succeeds, `Date.now()` otherwise. -/
def parseRecordTimestamp (now : ℚ) (r : SRecord) : ℚ := r.parsedTs.getD now

/-- One entry of `collectScenarioHistory`'s output:
`{ t, score, sessionId }`. -/
structure Run where
  t : ℚ
  score : ℚ
  sessionId : ℕ
deriving DecidableEq

/-- The filter loop of `collectScenarioHistory` (part_012 lines 349-354):
keep records of the named scenario whose `Number(stats['Score'] ?? 0)` is
finite (an absent field becomes score `0`; a non-finite one is skipped), as
`(t, score)` pairs.  The `fileName` component of the source's intermediate
objects is never read afterwards and is dropped. -/
def filteredRuns (now : ℚ) (items : List SRecord) (name : String) : List (ℚ × ℚ) :=
  items.filterMap (fun it =>
    if it.scenarioName ≠ name then none
    else
      match it.scoreF with
      | .absent => some (parseRecordTimestamp now it, 0)
      | .nonfinite => none
      | .num q => some (parseRecordTimestamp now it, q))

/-- Stable sort `filtered.sort((a, b) => a.t - b.t)` (part_012 line 356):
`Array.prototype.sort` is stable with a consistent comparator, and
`insertionSort` with the corresponding `≤` is exactly that stable sort. -/
def sortByT (l : List (ℚ × ℚ)) : List (ℚ × ℚ) :=
  List.insertionSort (fun a b => a.1 ≤ b.1) l

instance : DecidableRel (fun (a b : ℚ × ℚ) => a.1 ≤ b.1) :=
  fun a b => inferInstanceAs (Decidable (a.1 ≤ b.1))

instance : IsTotal (ℚ × ℚ) (fun a b => a.1 ≤ b.1) :=
  ⟨fun a b => le_total a.1 b.1⟩

instance : IsTrans (ℚ × ℚ) (fun a b => a.1 ≤ b.1) :=
  ⟨fun _ _ _ hab hbc => le_trans hab hbc⟩

/-- New-session decision of the walk: a new session starts on the first
record (`lastT` still `-Infinity`, modelled `none`) or when
`f.t - lastT > gapMs`. -/
def nextSid (gapMs : ℚ) (sid : ℕ) (lastT : Option ℚ) (t : ℚ) : ℕ :=
  match lastT with
  | none => sid + 1
  | some lt => if gapMs < t - lt then sid + 1 else sid

/-- The session-id walk of `collectScenarioHistory` (part_012 lines 358-364):
`sid` starts at 0 and `lastT` at `-Infinity`; a new session starts (`sid++`)
per `nextSid`. -/
def sessionWalk (gapMs : ℚ) (sid : ℕ) (lastT : Option ℚ) : List (ℚ × ℚ) → List Run
  | [] => []
  | f :: fs =>
    ⟨f.1, f.2, nextSid gapMs sid lastT f.1⟩ ::
      sessionWalk gapMs (nextSid gapMs sid lastT f.1) (some f.1) fs

/-- Fixed gap threshold of the forecaster (part_012 lines 344-345). -/
def SESSION_GAP_MIN : ℚ := 30

def gapMsDefault : ℚ := SESSION_GAP_MIN * 60 * 1000

/-- Embeds `collectScenarioHistory` (part_012 lines 341-366). -/
def collectScenarioHistory (now : ℚ) (items : List SRecord) (name : String) : List Run :=
  sessionWalk gapMsDefault 0 none (sortByT (filteredRuns now items name))

/-- Boundary consequences of the gap rule for one adjacent pair. -/
lemma gapRule_boundary {sidA sidB : ℕ} {tA tB gapMs : ℚ}
    (hrel : sidB = if gapMs < tB - tA then sidA + 1 else sidA) :
    (tB - tA = gapMs → sidB = sidA) ∧ (tB - tA = gapMs + 1 → sidB ≠ sidA) := by
  constructor
  · intro hd
    rw [hrel, hd, if_neg (lt_irrefl gapMs)]
  · intro hd
    rw [hrel, hd, if_pos (by linarith)]
    omega

/-- Adjacent entries of the session walk are related by the gap rule. -/
lemma sessionWalk_chain (gapMs : ℚ) :
    ∀ (l : List (ℚ × ℚ)) (sid : ℕ) (lastT : Option ℚ),
      List.Chain' (fun a b : Run =>
        b.sessionId = if gapMs < b.t - a.t then a.sessionId + 1 else a.sessionId)
        (sessionWalk gapMs sid lastT l) := by
  intro l
  induction l with
  | nil => intro sid lastT; exact List.chain'_nil
  | cons f fs ih =>
    intro sid lastT
    cases fs with
    | nil => exact List.chain'_singleton _
    | cons g gs =>
      rw [sessionWalk, sessionWalk]
      refine List.Chain'.cons ?_ ?_
      · rfl
      · have := ih (nextSid gapMs sid lastT f.1) (some f.1)
        rw [sessionWalk] at this
        exact this

/-- Claim C1 (**Gap threshold boundary**): in the session-grouping gap walk,
chronologically adjacent records whose timestamps differ by exactly the gap
threshold get the same `sessionId`, and records a further 1ms apart get
different `sessionId`s (the new-session test is a strict `>`). -/
theorem C1_gap_threshold_boundary (gapMs : ℚ) (l : List (ℚ × ℚ)) (sid0 : ℕ)
    (lt0 : Option ℚ) (i : ℕ) (h : i + 1 < (sessionWalk gapMs sid0 lt0 l).length) :
    ((sessionWalk gapMs sid0 lt0 l)[i + 1].t - (sessionWalk gapMs sid0 lt0 l)[i].t = gapMs →
      (sessionWalk gapMs sid0 lt0 l)[i + 1].sessionId =
        (sessionWalk gapMs sid0 lt0 l)[i].sessionId) ∧
    ((sessionWalk gapMs sid0 lt0 l)[i + 1].t - (sessionWalk gapMs sid0 lt0 l)[i].t = gapMs + 1 →
      (sessionWalk gapMs sid0 lt0 l)[i + 1].sessionId ≠
        (sessionWalk gapMs sid0 lt0 l)[i].sessionId) := by
  have hchain := sessionWalk_chain gapMs l sid0 lt0
  have hrel := List.chain'_iff_get.mp hchain i (by omega)
  have hrel' : (sessionWalk gapMs sid0 lt0 l)[i + 1].sessionId =
      if gapMs < (sessionWalk gapMs sid0 lt0 l)[i + 1].t - (sessionWalk gapMs sid0 lt0 l)[i].t
      then (sessionWalk gapMs sid0 lt0 l)[i].sessionId + 1
      else (sessionWalk gapMs sid0 lt0 l)[i].sessionId := by
    simpa [List.get_eq_getElem] using hrel
  exact gapRule_boundary hrel'

/-- Witness for C1: two records exactly 30 minutes apart share a session;
a third 30 minutes + 1ms later starts a new one. -/
theorem C1_gap_threshold_boundary_witness :
    (0 + 1 < (sessionWalk gapMsDefault 0 none [(0, 1), (1800000, 2), (3600001, 3)]).length ∧
      1 + 1 < (sessionWalk gapMsDefault 0 none [(0, 1), (1800000, 2), (3600001, 3)]).length) ∧
    ((sessionWalk gapMsDefault 0 none
        [(0, 1), (1800000, 2), (3600001, 3)]).getD (0 + 1) ⟨0, 0, 0⟩).sessionId =
      ((sessionWalk gapMsDefault 0 none
        [(0, 1), (1800000, 2), (3600001, 3)]).getD 0 ⟨0, 0, 0⟩).sessionId ∧
    ((sessionWalk gapMsDefault 0 none
        [(0, 1), (1800000, 2), (3600001, 3)]).getD (1 + 1) ⟨0, 0, 0⟩).sessionId ≠
      ((sessionWalk gapMsDefault 0 none
        [(0, 1), (1800000, 2), (3600001, 3)]).getD 1 ⟨0, 0, 0⟩).sessionId := by
  have h01 : 0 + 1 < (sessionWalk gapMsDefault 0 none
      [(0, 1), (1800000, 2), (3600001, 3)]).length := by decide
  have h12 : 1 + 1 < (sessionWalk gapMsDefault 0 none
      [(0, 1), (1800000, 2), (3600001, 3)]).length := by decide
  have conv : ∀ (j : ℕ) (hj : j < (sessionWalk gapMsDefault 0 none
      [(0, 1), (1800000, 2), (3600001, 3)]).length),
      (sessionWalk gapMsDefault 0 none [(0, 1), (1800000, 2), (3600001, 3)])[j] =
      (sessionWalk gapMsDefault 0 none [(0, 1), (1800000, 2), (3600001, 3)]).getD j ⟨0, 0, 0⟩ :=
    fun j hj => (List.getD_eq_getElem _ _ hj).symm
  have himp1 := (C1_gap_threshold_boundary gapMsDefault
    [(0, 1), (1800000, 2), (3600001, 3)] 0 none 0 h01).1
  have himp2 := (C1_gap_threshold_boundary gapMsDefault
    [(0, 1), (1800000, 2), (3600001, 3)] 0 none 1 h12).2
  rw [conv (0 + 1) h01, conv 0 (by omega)] at himp1
  rw [conv (1 + 1) h12, conv 1 (by omega)] at himp2
  refine ⟨⟨h01, h12⟩, himp1 ?_, himp2 ?_⟩
  · norm_num [sessionWalk, nextSid, gapMsDefault, SESSION_GAP_MIN]
  · norm_num [sessionWalk, nextSid, gapMsDefault, SESSION_GAP_MIN]

/-! Order-independence of the grouping (claim C9). -/

/-- Two permuted lists that are both strictly sorted on a key are equal. -/
lemma eq_of_perm_of_strict_sorted {α : Type} (key : α → ℚ) :
    ∀ {l₁ l₂ : List α}, l₁.Perm l₂ →
      l₁.Pairwise (fun a b => key a < key b) →
      l₂.Pairwise (fun a b => key a < key b) → l₁ = l₂ := by
  intro l₁
  induction l₁ with
  | nil =>
    intro l₂ hp _ _
    exact (List.Perm.nil_eq hp).symm ▸ rfl
  | cons a t₁ ih =>
    intro l₂ hp h₁ h₂
    cases l₂ with
    | nil => exact absurd hp.symm (by simp)
    | cons b t₂ =>
      have hab : a = b := by
        have ha2 : a ∈ b :: t₂ := hp.mem_iff.mp (List.mem_cons_self a t₁)
        rcases List.mem_cons.mp ha2 with h | h
        · exact h
        · exfalso
          have hba : key b < key a := (List.pairwise_cons.mp h₂).1 a h
          have hb1 : b ∈ a :: t₁ := hp.symm.mem_iff.mp (List.mem_cons_self b t₂)
          rcases List.mem_cons.mp hb1 with h' | h'
          · rw [h'] at hba
            exact lt_irrefl _ hba
          · have : key a < key b := (List.pairwise_cons.mp h₁).1 b h'
            exact lt_asymm this hba
      subst hab
      have htail : t₁.Perm t₂ := hp.cons_inv
      rw [ih htail (List.pairwise_cons.mp h₁).2 (List.pairwise_cons.mp h₂).2]

lemma sortByT_strict_pairwise {l : List (ℚ × ℚ)}
    (hnodup : (l.map Prod.fst).Nodup) :
    (sortByT l).Pairwise (fun a b => a.1 < b.1) := by
  have hsorted : (sortByT l).Pairwise (fun a b : ℚ × ℚ => a.1 ≤ b.1) :=
    List.sorted_insertionSort (fun a b : ℚ × ℚ => a.1 ≤ b.1) l
  have hperm : (sortByT l).Perm l := List.perm_insertionSort _ l
  have hnodup' : ((sortByT l).map Prod.fst).Nodup :=
    ((hperm.map Prod.fst).nodup_iff).mpr hnodup
  have hne : (sortByT l).Pairwise (fun a b => a.1 ≠ b.1) :=
    (List.pairwise_map).mp hnodup'
  exact (hsorted.and hne).imp (fun h => lt_of_le_of_ne h.1 h.2)

/-- Claim C9 amended (**Session grouping order-independence**): for every
permutation of the input records, the grouping yields the identical run list
with identical `sessionId`s, provided the resolved timestamps of the kept
records are pairwise distinct.  (With tied timestamps the output lists can
order the tied records differently; see the counterexample.) -/
theorem C9_grouping_order_independent (now : ℚ) (items₁ items₂ : List SRecord)
    (name : String) (hperm : items₁.Perm items₂)
    (hnodup : ((filteredRuns now items₁ name).map Prod.fst).Nodup) :
    collectScenarioHistory now items₁ name = collectScenarioHistory now items₂ name := by
  have hfperm : (filteredRuns now items₁ name).Perm (filteredRuns now items₂ name) :=
    hperm.filterMap _
  have hnodup₂ : ((filteredRuns now items₂ name).map Prod.fst).Nodup :=
    ((hfperm.map Prod.fst).nodup_iff).mp hnodup
  have hsorteq : sortByT (filteredRuns now items₁ name) =
      sortByT (filteredRuns now items₂ name) := by
    apply eq_of_perm_of_strict_sorted Prod.fst
    · exact (List.perm_insertionSort _ _).trans
        (hfperm.trans (List.perm_insertionSort _ _).symm)
    · exact sortByT_strict_pairwise hnodup
    · exact sortByT_strict_pairwise hnodup₂
  rw [collectScenarioHistory, collectScenarioHistory, hsorteq]

/-- Witness for the amended C9 at a concrete permuted pair with distinct
timestamps. -/
theorem C9_grouping_order_independent_witness :
    (([⟨"X", JSV.num 1, some 0⟩, ⟨"X", JSV.num 2, some 5⟩] : List SRecord).Perm
      [⟨"X", JSV.num 2, some 5⟩, ⟨"X", JSV.num 1, some 0⟩] ∧
     ((filteredRuns 0 [⟨"X", JSV.num 1, some 0⟩,
        ⟨"X", JSV.num 2, some 5⟩] "X").map Prod.fst).Nodup) ∧
    collectScenarioHistory 0
      [⟨"X", JSV.num 1, some 0⟩, ⟨"X", JSV.num 2, some 5⟩] "X" =
    collectScenarioHistory 0
      [⟨"X", JSV.num 2, some 5⟩, ⟨"X", JSV.num 1, some 0⟩] "X" :=
  ⟨⟨by decide, by decide⟩,
    C9_grouping_order_independent 0
      [⟨"X", JSV.num 1, some 0⟩, ⟨"X", JSV.num 2, some 5⟩]
      [⟨"X", JSV.num 2, some 5⟩, ⟨"X", JSV.num 1, some 0⟩]
      "X" (by decide) (by decide)⟩

/-- Counterexample to C9 as stated: with two records sharing the same
resolved timestamp, swapping the input order changes the output run list (the
stable sort preserves input order among ties), so the grouping is not
order-independent "including when several records share the same resolved
timestamp". -/
theorem C9_order_dependent_on_ties :
    (([⟨"X", JSV.num 1, some 0⟩, ⟨"X", JSV.num 2, some 0⟩] : List SRecord).Perm
      [⟨"X", JSV.num 2, some 0⟩, ⟨"X", JSV.num 1, some 0⟩]) ∧
    collectScenarioHistory 0
      [⟨"X", JSV.num 1, some 0⟩, ⟨"X", JSV.num 2, some 0⟩] "X" ≠
    collectScenarioHistory 0
      [⟨"X", JSV.num 2, some 0⟩, ⟨"X", JSV.num 1, some 0⟩] "X" := by
  refine ⟨by decide, fun h => ?_⟩
  have hmap := congrArg (List.map Run.score) h
  have hA : (collectScenarioHistory 0
      [⟨"X", JSV.num 1, some 0⟩, ⟨"X", JSV.num 2, some 0⟩] "X").map Run.score = [1, 2] := by
    norm_num [collectScenarioHistory, sortByT, filteredRuns, parseRecordTimestamp,
      sessionWalk, nextSid, List.insertionSort, List.orderedInsert]
  have hB : (collectScenarioHistory 0
      [⟨"X", JSV.num 2, some 0⟩, ⟨"X", JSV.num 1, some 0⟩] "X").map Run.score = [2, 1] := by
    norm_num [collectScenarioHistory, sortByT, filteredRuns, parseRecordTimestamp,
      sessionWalk, nextSid, List.insertionSort, List.orderedInsert]
  rw [hA, hB] at hmap
  norm_num at hmap

/-! Embedding of the highscore forecaster proper (part_012 lines 231-555). -/

/-- The transcendental library functions used by the forecaster
(`Math.exp`, `Math.log10`, `Math.pow(10, -)`, `Math.pow(0.5, -)`,
`Math.sqrt`).  In JS these are finite-precision number-to-number functions;
they are threaded through explicitly, so every theorem below holds for the
actual library functions in particular. -/
structure RealOps where
  exp : ℚ → ℚ
  log10 : ℚ → ℚ
  pow10 : ℚ → ℚ
  powHalf : ℚ → ℚ
  sqrt : ℚ → ℚ

/-- Milliseconds per day (part_012 line 251). -/
def DAY : ℚ := 24 * 3600 * 1000

/-- Embeds `clamp` (part_012 line 368): `Math.max(a, Math.min(b, n))`. -/
def clamp (n a b : ℚ) : ℚ := max a (min b n)

/-- JS `Math.round`: round half up. -/
def jround (q : ℚ) : ℤ := ⌊q + 1 / 2⌋

/-- Embeds `Math.min(...vals)` for a non-empty list (the empty case is
guarded in the sources). -/
def minQ : List ℚ → ℚ
  | [] => 0
  | x :: xs => xs.foldl min x

/-- Linear interpolation at fractional position `pos` between the values of
`g` at `⌊pos⌋` and `⌈pos⌉` — the body of `quantile` after sorting. -/
def interpAt (g : ℕ → ℚ) (pos : ℚ) : ℚ :=
  let lo := ⌊pos⌋
  let hi := ⌈pos⌉
  let f := pos - lo
  if hi = lo then g lo.toNat else g lo.toNat * (1 - f) + g hi.toNat * f

instance : DecidableRel (fun (a b : ℚ) => a ≤ b) :=
  fun a b => inferInstanceAs (Decidable (a ≤ b))

/-- Embeds `quantile` (part_012 lines 370-377): sort ascending, then linearly
interpolate at `clamp(q,0,1) * (length - 1)`; `0` for an empty array.  The
in-range accesses `a[lo]`, `a[hi]` become `getD`. -/
def quantile (arr : List ℚ) (q : ℚ) : ℚ :=
  if arr.length = 0 then 0
  else
    let a := List.insertionSort (fun x y : ℚ => x ≤ y) arr
    interpAt (fun k => a.getD k 0) (clamp q 0 1 * ((a.length : ℚ) - 1))

/-- Output of `weightedLinReg`. -/
structure RegResult where
  a : ℚ
  b : ℚ
  r2 : ℚ
deriving DecidableEq

/-- Embeds `weightedLinReg` (part_012 lines 309-339): weighted least squares
over the first `n = min(lengths)` points, slope/intercept guarded on zero
denominators, and weighted R² guarded on `ssTot > 0`. -/
def weightedLinReg (xs ys ws : List ℚ) : RegResult :=
  let n := min xs.length (min ys.length ws.length)
  if n < 2 then { a := 0, b := 0, r2 := 0 }
  else
    let Sw := ((List.range n).map (fun i => ws.getD i 0)).sum
    let Swx := ((List.range n).map (fun i => ws.getD i 0 * xs.getD i 0)).sum
    let Swy := ((List.range n).map (fun i => ws.getD i 0 * ys.getD i 0)).sum
    let Swxx := ((List.range n).map (fun i => ws.getD i 0 * xs.getD i 0 * xs.getD i 0)).sum
    let Swxy := ((List.range n).map (fun i => ws.getD i 0 * xs.getD i 0 * ys.getD i 0)).sum
    let denom := Sw * Swxx - Swx * Swx
    let b := if denom ≠ 0 then (Sw * Swxy - Swx * Swy) / denom else 0
    let a := if Sw ≠ 0 then (Swy - b * Swx) / Sw else 0
    let ymean := if Sw ≠ 0 then Swy / Sw else 0
    let ssRes := ((List.range n).map (fun i =>
      ws.getD i 0 * (ys.getD i 0 - (a + b * xs.getD i 0)) *
        (ys.getD i 0 - (a + b * xs.getD i 0)))).sum
    let ssTot := ((List.range n).map (fun i =>
      ws.getD i 0 * (ys.getD i 0 - ymean) * (ys.getD i 0 - ymean))).sum
    let r2 := if 0 < ssTot then 1 - ssRes / ssTot else 0
    { a := a, b := b, r2 := r2 }

/-- Output of `fitDeltaVsPause`. -/
structure FitResult where
  tau : ℚ
  a : ℚ
  b : ℚ
  r2 : ℚ
deriving DecidableEq

/-- Embeds `fitDeltaVsPause` (part_012 lines 379-400): search a log-spaced
grid of 25 time constants, keeping the fit with the strictly largest weighted
R² (`if (r2 > best.r2)`). -/
def fitDeltaVsPause (ops : RealOps) (dtDays deltas pairWeights : List ℚ) : FitResult :=
  let safe := dtDays.filter (fun v => decide (0 < v))
  let minDt := if safe.length ≠ 0 then max (1 / (24 * 60)) (minQ safe) else 5 / (24 * 60)
  let maxDt := if safe.length ≠ 0 then max (minDt * 5) (quantile safe (9 / 10)) else 2 / 24
  let lo := ops.log10 (minDt / 3)
  let hi := ops.log10 (maxDt * 3)
  let steps := 25
  let taus := (List.range steps).map (fun i =>
    ops.pow10 (lo + (hi - lo) * ((i : ℚ) / ((steps : ℚ) - 1))))
  let init : FitResult := { tau := ops.sqrt (minDt * maxDt), a := 0, b := 0, r2 := 0 }
  taus.foldl (fun best tau =>
    let x := dtDays.map (fun d => 1 - ops.exp (-(max 0 d) / tau))
    let res := weightedLinReg x deltas pairWeights
    if best.r2 < res.r2 then { tau := tau, a := res.a, b := res.b, r2 := res.r2 } else best) init

/-- Embeds `expectedDeltaAtPause` (part_012 lines 402-405). -/
def expectedDeltaAtPause (ops : RealOps) (a b tau dtDays : ℚ) : ℚ :=
  a * (1 - ops.exp (-(max 0 dtDays) / max (1 / 1000000) tau)) + b

/-- Candidate kept by `findOptimalPauseAndRuns`. -/
structure OptResult where
  dtDays : ℚ
  runs : ℚ
  delta : ℚ
deriving DecidableEq

/-- Embeds `findOptimalPauseAndRuns` (part_012 lines 407-424).  The loop
`for (d = min; d <= max + 1e-9; d += step)` visits `min + k·step` for
`k = 0..⌊(max + 1e-9 - min)/step⌋` (the source's repeated addition is exact
here); the JS initial best `{runs: Infinity}` that any finite candidate beats
is modelled as `none`, and `!isFinite(best.runs)` at the end is `none`. -/
def findOptimalPauseAndRuns (ops : RealOps) (deficit : ℚ) (fit : FitResult)
    (dtMinDays dtMaxDays dtStepDays : ℚ) : Option OptResult :=
  let candidates :=
    if dtMinDays ≤ dtMaxDays + 1 / 1000000000 then
      (List.range ((((dtMaxDays + 1 / 1000000000 - dtMinDays) / dtStepDays).floor).toNat + 1)).map
        (fun k => dtMinDays + (k : ℚ) * dtStepDays)
    else []
  candidates.foldl (fun best d =>
    let delta := max 0 (expectedDeltaAtPause ops fit.a fit.b fit.tau d)
    if delta ≤ 1 / 1000000 then best
    else
      let runs := deficit / delta
      let time := runs * d
      match best with
      | none => some { dtDays := d, runs := runs, delta := delta }
      | some b =>
        if time < b.runs * b.dtDays then some { dtDays := d, runs := runs, delta := delta }
        else some b) none

/-- Embeds `humanizeETA` (part_012 lines 253-268); string building uses plain
concatenation. -/
def humanizeETA (ms : ℚ) : String :=
  if ¬0 < ms then "soon"
  else
    let totalMin := jround (ms / (60 * 1000))
    let days := totalMin / (60 * 24)
    let hours := (totalMin % (60 * 24)) / 60
    let mins := totalMin % 60
    if days ≤ 0 then
      if hours ≤ 0 then toString mins ++ "m"
      else if mins ≠ 0 then toString hours ++ "h " ++ toString mins ++ "m"
      else toString hours ++ "h"
    else if days < 7 then
      if mins ≠ 0 then toString days ++ "d " ++ toString hours ++ "h " ++ toString mins ++ "m"
      else if hours ≠ 0 then toString days ++ "d " ++ toString hours ++ "h"
      else toString days ++ "d"
    else
      let weeks := days / 7
      let remDays := days % 7
      if remDays ≠ 0 then toString weeks ++ "w " ++ toString remDays ++ "d"
      else toString weeks ++ "w"

/-- Confidence label. -/
inductive Confidence where
  | low : Confidence
  | med : Confidence
  | high : Confidence
deriving DecidableEq

/-- Bucketing `confScore > 0.6 ? 'high' : (confScore > 0.3 ? 'med' : 'low')`. -/
def confBucket (confScore : ℚ) : Confidence :=
  if 3 / 5 < confScore then .high else if 3 / 10 < confScore then .med else .low

/-- Output record of `predictNextHighscore` (part_012 lines 231-249). -/
structure HighscorePrediction where
  etaTs : Option ℚ
  etaHuman : String
  runsExpected : Option ℤ
  runsLo : Option ℤ
  runsHi : Option ℤ
  optPauseHours : Option ℚ
  confidence : Confidence
  sample : ℕ
  best : ℚ
  lastScore : ℚ
  lastPlayedDays : ℚ
  slopePerDay : ℚ
  slopePerRun : ℚ
  reason : Option String
deriving DecidableEq

/-- The paired-observation loop of `predictNextHighscore` (part_012 lines
458-473): for every adjacent pair of runs with equal `sessionId` push the
pause (floored at one minute, in days), the score delta, and the recency
weight `0.5^((n-1-i)/6)`; `i` is the index of the later run and `n` the full
history length. -/
def buildPairsGo (ops : RealOps) (nq : ℚ) (i : ℕ) : List Run → List ℚ × List ℚ × List ℚ
  | a :: b :: rest =>
    let tail := buildPairsGo ops nq (i + 1) (b :: rest)
    if a.sessionId = b.sessionId then
      (max (1 / (24 * 60)) ((b.t - a.t) / DAY) :: tail.1,
        (b.score - a.score) :: tail.2.1,
        ops.powHalf ((nq - 1 - (i : ℚ)) / 6) :: tail.2.2)
    else tail
  | _ => ([], [], [])

def buildPairs (ops : RealOps) (hist : List Run) : List ℚ × List ℚ × List ℚ :=
  buildPairsGo ops (hist.length : ℚ) 1 hist

/-- The IQR clipping of `predictNextHighscore` (part_012 lines 475-483):
when at least 6 pairs exist, clamp every delta to
`[q1 - 1.5·iqr, q3 + 1.5·iqr]` with `iqr = max(1, q3 - q1)`. -/
def clipDeltas (deltas : List ℚ) : List ℚ :=
  if 6 ≤ deltas.length then
    let q1 := quantile deltas (1 / 4)
    let q3 := quantile deltas (3 / 4)
    let iqr := max 1 (q3 - q1)
    deltas.map (fun x => clamp x (q1 - 3 / 2 * iqr) (q3 + 3 / 2 * iqr))
  else deltas

/-- The `n < 4` sentinel of `predictNextHighscore` (part_012 line 431). -/
def insufficientResult (n : ℕ) : HighscorePrediction :=
  { etaTs := none, etaHuman := "unknown", runsExpected := none, runsLo := none,
    runsHi := none, optPauseHours := none, confidence := .low, sample := n, best := 0,
    lastScore := 0, lastPlayedDays := 0, slopePerDay := 0, slopePerRun := 0,
    reason := some "Need at least 4 runs" }

/-- The near-best shortcut result (part_012 lines 494-504). -/
def nearBestResult (now : ℚ) (n : ℕ) (best lastScore lastPlayedDays slopePerDay slopePerRun : ℚ)
    (fitR2 : ℚ) (dtDays : List ℚ) : HighscorePrediction :=
  let soonPauseH : ℤ := max 1 (jround (quantile dtDays (1 / 4) * 24))
  let soonTs := now + max (DAY * (1 / 4)) ((soonPauseH : ℚ) * (60 * 60 * 1000))
  let pairSample := dtDays.length
  let sizeFactor := min 1 ((pairSample : ℚ) / 24)
  let confScore := max 0 (min 1 (2 / 5 * fitR2 + 3 / 5 * sizeFactor))
  { etaTs := some soonTs, etaHuman := humanizeETA (soonTs - now), runsExpected := some 1,
    runsLo := some 1, runsHi := some 2, optPauseHours := some ((soonPauseH : ℚ)),
    confidence := confBucket confScore, sample := n, best := best, lastScore := lastScore,
    lastPlayedDays := lastPlayedDays, slopePerDay := slopePerDay, slopePerRun := slopePerRun,
    reason := none }

/-- The fallback estimator (part_012 lines 515-537): robust mean positive
delta and median observed pause; degenerates to the "No upward trend" sentinel
(`!isFinite(runsRaw)` is impossible in the exact model). -/
def fallbackEstimate (now : ℚ) (n : ℕ) (best lastScore lastPlayedDays slopePerDay slopePerRun : ℚ)
    (deficit meanPos stdPos epsImprovement : ℚ) (havePairs : Bool) (dtDays : List ℚ) :
    HighscorePrediction :=
  let medDt0 := if havePairs then quantile dtDays (1 / 2) else 5 / (24 * 60)
  let medDt := if medDt0 = 0 then 5 / (24 * 60) else medDt0
  let spr := max (1 / 1000000) meanPos
  let runsRaw := deficit / spr
  if 500 < runsRaw ∨ spr < epsImprovement * (1 / 4) then
    { etaTs := none, etaHuman := "unknown", runsExpected := none, runsLo := none,
      runsHi := none, optPauseHours := none, confidence := .low, sample := n, best := best,
      lastScore := lastScore, lastPlayedDays := lastPlayedDays, slopePerDay := slopePerDay,
      slopePerRun := slopePerRun, reason := some "No upward trend detected yet" }
  else
    let runs : ℤ := ⌈runsRaw⌉
    let pairSample := dtDays.length
    let sizeFactor := min 1 ((pairSample : ℚ) / 24)
    let stability := if 1 / 1000000 < meanPos then clamp (1 - min 2 (stdPos / max 1 meanPos)) 0 1
      else 0
    let recencyPenalty := clamp (lastPlayedDays / 21) 0 1
    let confScore := clamp (3 / 20 + 11 / 20 * (3 / 5 * sizeFactor + 2 / 5 * stability)
      - 3 / 20 * recencyPenalty) 0 1
    let widen := 7 / 25 + 8 / 25 * (1 - confScore) + 3 / 25 * (1 - stability)
    let lo : ℤ := max 1 ⌊(runs : ℚ) * (1 - widen)⌋
    let hi : ℤ := max (lo + 1) ⌈(runs : ℚ) * (1 + widen)⌉
    let eta := now + max 1 (runs : ℚ) * medDt * DAY
    { etaTs := some eta, etaHuman := humanizeETA (eta - now), runsExpected := some runs,
      runsLo := some lo, runsHi := some hi, optPauseHours := some ((jround (medDt * 24) : ℚ)),
      confidence := confBucket confScore, sample := n, best := best, lastScore := lastScore,
      lastPlayedDays := lastPlayedDays, slopePerDay := slopePerDay, slopePerRun := slopePerRun,
      reason := some "Using robust recent trend" }

/-- The optimized forecast (part_012 lines 539-554). -/
def optimizedResult (now : ℚ) (n : ℕ) (best lastScore lastPlayedDays slopePerDay slopePerRun : ℚ)
    (meanPos stdPos : ℚ) (fit : FitResult) (dtDays : List ℚ) (o : OptResult) :
    HighscorePrediction :=
  let runs : ℤ := max 1 ⌈o.runs⌉
  let eta := now + (runs : ℚ) * o.dtDays * DAY
  let pairSample := dtDays.length
  let sizeFactor := min 1 ((pairSample : ℚ) / 24)
  let stability := if 1 / 1000000 < meanPos then clamp (1 - min 2 (stdPos / max 1 meanPos)) 0 1
    else 0
  let recencyPenalty := clamp (lastPlayedDays / 21) 0 1
  let confScore := clamp (3 / 20 + 11 / 20 * (7 / 10 * fit.r2 + 3 / 10 * sizeFactor)
    + 3 / 10 * stability - 1 / 5 * recencyPenalty) 0 1
  let widen := 11 / 50 + 3 / 10 * (1 - confScore) + 3 / 25 * (1 - stability)
  let lo : ℤ := max 1 ⌊(runs : ℚ) * (1 - widen)⌋
  let hi : ℤ := max (lo + 1) ⌈(runs : ℚ) * (1 + widen)⌉
  let optPauseHours := max (1 / 60) (min (o.dtDays * 24) (SESSION_GAP_MIN / 60))
  { etaTs := some eta, etaHuman := humanizeETA (eta - now), runsExpected := some runs,
    runsLo := some lo, runsHi := some hi, optPauseHours := some optPauseHours,
    confidence := confBucket confScore, sample := n, best := best, lastScore := lastScore,
    lastPlayedDays := lastPlayedDays, slopePerDay := slopePerDay, slopePerRun := slopePerRun,
    reason := none }

/-- The guard `if (!opt || !isFinite(opt.runs) || opt.runs > 500 ||
opt.delta < epsImprovement)` (part_012 line 515) routing to the fallback
estimator or the optimized forecast; `!isFinite(opt.runs)` is impossible in
the exact model. -/
def optBranch (now : ℚ) (n : ℕ)
    (best lastScore lastPlayedDays slopePerDay slopePerRun
      deficit meanPos stdPos epsImprovement : ℚ) (fit : FitResult) (havePairs : Bool)
    (dtDays : List ℚ) : Option OptResult → HighscorePrediction
  | none =>
    fallbackEstimate now n best lastScore lastPlayedDays slopePerDay slopePerRun
      deficit meanPos stdPos epsImprovement havePairs dtDays
  | some o =>
    if 500 < o.runs ∨ o.delta < epsImprovement then
      fallbackEstimate now n best lastScore lastPlayedDays slopePerDay slopePerRun
        deficit meanPos stdPos epsImprovement havePairs dtDays
    else
      optimizedResult now n best lastScore lastPlayedDays slopePerDay slopePerRun
        meanPos stdPos fit dtDays o

/-- Embeds `predictNextHighscore` (part_012 lines 426-555). -/
def predictNextHighscore (ops : RealOps) (now : ℚ) (items : List SRecord) (name : String) :
    HighscorePrediction :=
  let hist := collectScenarioHistory now items name
  let n := hist.length
  if n < 4 then insufficientResult n
  else
    let best := maxQ (hist.map (fun h => h.score))
    let last := hist.getD (n - 1) ⟨0, 0, 0⟩
    let lastPlayedDays := (now - last.t) / DAY
    let t0 := (hist.getD 0 ⟨0, 0, 0⟩).t
    let xsDays := hist.map (fun h => (h.t - t0) / DAY)
    let ys := hist.map (fun h => h.score)
    let idx := (List.range n).map (fun i => (i : ℚ))
    let wsRuns := (List.range n).map (fun i => ops.powHalf (((n : ℚ) - 1 - (i : ℚ)) / 6))
    let slopePerRun := (weightedLinReg idx ys wsRuns).b
    let wsDaysDiag := hist.map (fun h => ops.powHalf ((now - h.t) / (21 * DAY)))
    let keep := (List.range n).filter (fun i =>
      !(decide (40 < n) && decide (wsDaysDiag.getD i 0 < 1 / 25)))
    let xs2 := keep.map (fun i => xsDays.getD i 0)
    let ys2 := keep.map (fun i => ys.getD i 0)
    let ws2 := keep.map (fun i => wsDaysDiag.getD i 0)
    let slopePerDay := (weightedLinReg xs2 ys2 ws2).b
    let pairs := buildPairs ops hist
    let dtDays := pairs.1
    let havePairs := 2 ≤ dtDays.length
    let deltas := clipDeltas pairs.2.1
    let pos := deltas.map (fun x => max 0 x)
    let meanPos := pos.sum / max 1 ((pos.length : ℚ))
    let varPos := (pos.map (fun b => (b - meanPos) * (b - meanPos))).sum /
      max 1 ((pos.length : ℚ))
    let stdPos := ops.sqrt (max 0 varPos)
    let fit := if havePairs then fitDeltaVsPause ops dtDays deltas pairs.2.2
      else { tau := 5 / (24 * 60), a := 0, b := 0, r2 := 0 }
    let deficitMargin := max 1 ((jround (best * (3 / 1000)) : ℚ))
    let target := best + deficitMargin
    let deficit := target - last.score
    let epsImprovement := max 1 ((jround (best * (2 / 10000)) : ℚ))
    if best - last.score ≤ epsImprovement then
      nearBestResult now n best last.score lastPlayedDays slopePerDay slopePerRun fit.r2 dtDays
    else
      let sessionGapDays := SESSION_GAP_MIN / (24 * 60)
      let dtMinObs := if havePairs then max (1 / (24 * 60)) (quantile dtDays (1 / 10) * (7 / 10))
        else 2 / (24 * 60)
      let dtMaxObs := if havePairs then
          max (dtMinObs * (6 / 5)) (min sessionGapDays (quantile dtDays (9 / 10) * (7 / 5)))
        else min sessionGapDays (15 / (24 * 60))
      let dtStepDays := max (1 / 2 / (24 * 60)) ((dtMaxObs - dtMinObs) / 60)
      let opt := findOptimalPauseAndRuns ops deficit fit dtMinObs dtMaxObs dtStepDays
      optBranch now n best last.score lastPlayedDays slopePerDay slopePerRun
        deficit meanPos stdPos epsImprovement fit havePairs dtDays opt

/-- Claim C5 (**Highscore insufficient-data**): with fewer than 4 runs of the
named scenario, `predictNextHighscore` returns the sentinel with `etaTs`
null, confidence `low`, `runsExpected` null and a non-empty reason; it is a
total function, so it never throws. -/
theorem C5_insufficient_data (ops : RealOps) (now : ℚ) (items : List SRecord) (name : String)
    (h : (collectScenarioHistory now items name).length < 4) :
    (predictNextHighscore ops now items name).etaTs = none ∧
    (predictNextHighscore ops now items name).confidence = .low ∧
    (predictNextHighscore ops now items name).runsExpected = none ∧
    ∃ s, (predictNextHighscore ops now items name).reason = some s ∧ s ≠ "" := by
  have hp : predictNextHighscore ops now items name =
      insufficientResult (collectScenarioHistory now items name).length := by
    simp only [predictNextHighscore]
    rw [if_pos h]
  rw [hp]
  exact ⟨rfl, rfl, rfl, "Need at least 4 runs", rfl, by decide⟩

/-- Witness for C5 at a concrete input with exactly 3 runs. -/
theorem C5_insufficient_data_witness :
    ((collectScenarioHistory 0 [⟨"X", JSV.num 1, some 0⟩, ⟨"X", JSV.num 2, some 3600000⟩,
        ⟨"X", JSV.num 3, some 7200000⟩] "X").length < 4) ∧
    ((predictNextHighscore ⟨fun _ => 0, fun _ => 0, fun _ => 0, fun _ => 0, fun _ => 0⟩ 0
        [⟨"X", JSV.num 1, some 0⟩, ⟨"X", JSV.num 2, some 3600000⟩,
          ⟨"X", JSV.num 3, some 7200000⟩] "X").etaTs = none ∧
      (predictNextHighscore ⟨fun _ => 0, fun _ => 0, fun _ => 0, fun _ => 0, fun _ => 0⟩ 0
        [⟨"X", JSV.num 1, some 0⟩, ⟨"X", JSV.num 2, some 3600000⟩,
          ⟨"X", JSV.num 3, some 7200000⟩] "X").confidence = .low ∧
      (predictNextHighscore ⟨fun _ => 0, fun _ => 0, fun _ => 0, fun _ => 0, fun _ => 0⟩ 0
        [⟨"X", JSV.num 1, some 0⟩, ⟨"X", JSV.num 2, some 3600000⟩,
          ⟨"X", JSV.num 3, some 7200000⟩] "X").runsExpected = none ∧
      ∃ s, (predictNextHighscore ⟨fun _ => 0, fun _ => 0, fun _ => 0, fun _ => 0, fun _ => 0⟩ 0
        [⟨"X", JSV.num 1, some 0⟩, ⟨"X", JSV.num 2, some 3600000⟩,
          ⟨"X", JSV.num 3, some 7200000⟩] "X").reason = some s ∧ s ≠ "") := by
  have hlen : (collectScenarioHistory 0 [⟨"X", JSV.num 1, some 0⟩,
      ⟨"X", JSV.num 2, some 3600000⟩, ⟨"X", JSV.num 3, some 7200000⟩] "X").length < 4 := by
    norm_num [collectScenarioHistory, sortByT, filteredRuns, parseRecordTimestamp,
      List.insertionSort, List.orderedInsert, sessionWalk]
  exact ⟨hlen, C5_insufficient_data ⟨fun _ => 0, fun _ => 0, fun _ => 0, fun _ => 0, fun _ => 0⟩ 0
    [⟨"X", JSV.num 1, some 0⟩, ⟨"X", JSV.num 2, some 3600000⟩,
      ⟨"X", JSV.num 3, some 7200000⟩] "X" hlen⟩

/-- Claim C6 (**Highscore near-best shortcut**): with at least 4 runs of the
scenario and the chronologically last run's score equal to the maximum over
the history, `predictNextHighscore` returns `runsExpected = 1 ∈ {1,2}` with
`runsLo = 1`, `runsHi = 2`, and a non-null `etaTs` strictly greater than the
call time. -/
theorem C6_near_best_shortcut (ops : RealOps) (now : ℚ) (items : List SRecord) (name : String)
    (h4 : 4 ≤ (collectScenarioHistory now items name).length)
    (hlast : ((collectScenarioHistory now items name).getD
        ((collectScenarioHistory now items name).length - 1) ⟨0, 0, 0⟩).score =
      maxQ ((collectScenarioHistory now items name).map (fun h => h.score))) :
    (predictNextHighscore ops now items name).runsExpected = some 1 ∧
    (predictNextHighscore ops now items name).runsLo = some 1 ∧
    (predictNextHighscore ops now items name).runsHi = some 2 ∧
    ∃ e, (predictNextHighscore ops now items name).etaTs = some e ∧ now < e := by
  have h4' : ¬(collectScenarioHistory now items name).length < 4 := by omega
  have hcond : maxQ ((collectScenarioHistory now items name).map (fun h => h.score)) -
      ((collectScenarioHistory now items name).getD
        ((collectScenarioHistory now items name).length - 1) ⟨0, 0, 0⟩).score ≤
      max 1 ((jround (maxQ ((collectScenarioHistory now items name).map (fun h => h.score)) *
        (2 / 10000)) : ℚ)) := by
    rw [hlast, sub_self]
    exact le_trans zero_le_one (le_max_left _ _)
  simp only [predictNextHighscore]
  rw [if_neg h4', if_pos hcond]
  refine ⟨rfl, rfl, rfl, _, rfl, ?_⟩
  exact lt_add_of_pos_right now (lt_of_lt_of_le (by norm_num [DAY]) (le_max_left _ _))

/-- Witness for C6: four runs one hour apart, all with score 5 (the last ties
the best). -/
theorem C6_near_best_shortcut_witness :
    (4 ≤ (collectScenarioHistory 0 [⟨"X", JSV.num 5, some 0⟩, ⟨"X", JSV.num 5, some 3600000⟩,
        ⟨"X", JSV.num 5, some 7200000⟩, ⟨"X", JSV.num 5, some 10800000⟩] "X").length ∧
      ((collectScenarioHistory 0 [⟨"X", JSV.num 5, some 0⟩, ⟨"X", JSV.num 5, some 3600000⟩,
          ⟨"X", JSV.num 5, some 7200000⟩, ⟨"X", JSV.num 5, some 10800000⟩] "X").getD
        ((collectScenarioHistory 0 [⟨"X", JSV.num 5, some 0⟩, ⟨"X", JSV.num 5, some 3600000⟩,
          ⟨"X", JSV.num 5, some 7200000⟩, ⟨"X", JSV.num 5, some 10800000⟩] "X").length - 1)
          ⟨0, 0, 0⟩).score =
        maxQ ((collectScenarioHistory 0 [⟨"X", JSV.num 5, some 0⟩,
          ⟨"X", JSV.num 5, some 3600000⟩, ⟨"X", JSV.num 5, some 7200000⟩,
          ⟨"X", JSV.num 5, some 10800000⟩] "X").map (fun h => h.score))) ∧
    ((predictNextHighscore ⟨fun _ => 0, fun _ => 0, fun _ => 0, fun _ => 0, fun _ => 0⟩ 0
        [⟨"X", JSV.num 5, some 0⟩, ⟨"X", JSV.num 5, some 3600000⟩,
          ⟨"X", JSV.num 5, some 7200000⟩, ⟨"X", JSV.num 5, some 10800000⟩] "X").runsExpected =
          some 1 ∧
      (predictNextHighscore ⟨fun _ => 0, fun _ => 0, fun _ => 0, fun _ => 0, fun _ => 0⟩ 0
        [⟨"X", JSV.num 5, some 0⟩, ⟨"X", JSV.num 5, some 3600000⟩,
          ⟨"X", JSV.num 5, some 7200000⟩, ⟨"X", JSV.num 5, some 10800000⟩] "X").runsLo = some 1 ∧
      (predictNextHighscore ⟨fun _ => 0, fun _ => 0, fun _ => 0, fun _ => 0, fun _ => 0⟩ 0
        [⟨"X", JSV.num 5, some 0⟩, ⟨"X", JSV.num 5, some 3600000⟩,
          ⟨"X", JSV.num 5, some 7200000⟩, ⟨"X", JSV.num 5, some 10800000⟩] "X").runsHi = some 2 ∧
      ∃ e, (predictNextHighscore ⟨fun _ => 0, fun _ => 0, fun _ => 0, fun _ => 0, fun _ => 0⟩ 0
        [⟨"X", JSV.num 5, some 0⟩, ⟨"X", JSV.num 5, some 3600000⟩,
          ⟨"X", JSV.num 5, some 7200000⟩, ⟨"X", JSV.num 5, some 10800000⟩] "X").etaTs = some e ∧
        (0 : ℚ) < e) := by
  have hcollect : collectScenarioHistory 0 [⟨"X", JSV.num 5, some 0⟩,
      ⟨"X", JSV.num 5, some 3600000⟩, ⟨"X", JSV.num 5, some 7200000⟩,
      ⟨"X", JSV.num 5, some 10800000⟩] "X" =
      [⟨0, 5, 1⟩, ⟨3600000, 5, 2⟩, ⟨7200000, 5, 3⟩, ⟨10800000, 5, 4⟩] := by
    norm_num [collectScenarioHistory, sortByT, filteredRuns, parseRecordTimestamp,
      List.insertionSort, List.orderedInsert, sessionWalk, nextSid, gapMsDefault,
      SESSION_GAP_MIN]
  have h4 : 4 ≤ (collectScenarioHistory 0 [⟨"X", JSV.num 5, some 0⟩,
      ⟨"X", JSV.num 5, some 3600000⟩, ⟨"X", JSV.num 5, some 7200000⟩,
      ⟨"X", JSV.num 5, some 10800000⟩] "X").length := by
    rw [hcollect]
    norm_num
  have hlast : ((collectScenarioHistory 0 [⟨"X", JSV.num 5, some 0⟩,
      ⟨"X", JSV.num 5, some 3600000⟩, ⟨"X", JSV.num 5, some 7200000⟩,
      ⟨"X", JSV.num 5, some 10800000⟩] "X").getD
      ((collectScenarioHistory 0 [⟨"X", JSV.num 5, some 0⟩, ⟨"X", JSV.num 5, some 3600000⟩,
        ⟨"X", JSV.num 5, some 7200000⟩, ⟨"X", JSV.num 5, some 10800000⟩] "X").length - 1)
        ⟨0, 0, 0⟩).score =
      maxQ ((collectScenarioHistory 0 [⟨"X", JSV.num 5, some 0⟩,
        ⟨"X", JSV.num 5, some 3600000⟩, ⟨"X", JSV.num 5, some 7200000⟩,
        ⟨"X", JSV.num 5, some 10800000⟩] "X").map (fun h => h.score)) := by
    rw [hcollect]
    norm_num [maxQ]
  exact ⟨⟨h4, hlast⟩, C6_near_best_shortcut
    ⟨fun _ => 0, fun _ => 0, fun _ => 0, fun _ => 0, fun _ => 0⟩ 0
    [⟨"X", JSV.num 5, some 0⟩, ⟨"X", JSV.num 5, some 3600000⟩,
      ⟨"X", JSV.num 5, some 7200000⟩, ⟨"X", JSV.num 5, some 10800000⟩] "X" h4 hlast⟩

/-! Bounds for the runs range (claim C10). -/

lemma clamp_le_of_le {x a b : ℚ} (hab : a ≤ b) : clamp x a b ≤ b := by
  rw [clamp]
  exact max_le hab (min_le_left _ _)

lemma widen_nonneg {conf stab c0 c1 c2 : ℚ} (h0 : 0 ≤ c0) (h1 : 0 ≤ c1) (h2 : 0 ≤ c2)
    (hc : conf ≤ 1) (hs : stab ≤ 1) : 0 ≤ c0 + c1 * (1 - conf) + c2 * (1 - stab) := by
  nlinarith

/-- The `lo/hi` widening always brackets `runs`: `1 ≤ lo ≤ runs ≤ hi` and
`lo < hi`. -/
lemma runsWiden_bounds (runs : ℤ) (widen : ℚ) (h1 : 1 ≤ runs) (hw : 0 ≤ widen) :
    1 ≤ max 1 ⌊(runs : ℚ) * (1 - widen)⌋ ∧
    max 1 ⌊(runs : ℚ) * (1 - widen)⌋ ≤ runs ∧
    runs ≤ max (max 1 ⌊(runs : ℚ) * (1 - widen)⌋ + 1) ⌈(runs : ℚ) * (1 + widen)⌉ ∧
    max 1 ⌊(runs : ℚ) * (1 - widen)⌋ <
      max (max 1 ⌊(runs : ℚ) * (1 - widen)⌋ + 1) ⌈(runs : ℚ) * (1 + widen)⌉ := by
  have h0 : (0 : ℚ) ≤ (runs : ℚ) := by exact_mod_cast le_trans zero_le_one h1
  have hfloor : ⌊(runs : ℚ) * (1 - widen)⌋ ≤ runs := by
    calc ⌊(runs : ℚ) * (1 - widen)⌋ ≤ ⌊(runs : ℚ)⌋ := Int.floor_le_floor (by nlinarith)
    _ = runs := Int.floor_intCast runs
  have hceil : runs ≤ ⌈(runs : ℚ) * (1 + widen)⌉ := by
    calc runs = ⌈((runs : ℤ) : ℚ)⌉ := (Int.ceil_intCast runs).symm
    _ ≤ ⌈(runs : ℚ) * (1 + widen)⌉ := Int.ceil_le_ceil (by nlinarith)
  exact ⟨le_max_left _ _, max_le h1 hfloor, le_trans hceil (le_max_right _ _),
    lt_of_lt_of_le (lt_add_one _) (le_max_left _ _)⟩

/-- Whenever the fallback estimator reports a non-null `runsExpected`, the
bounds bracket it, provided the score deficit is positive (which the caller
guarantees once the near-best shortcut is not taken). -/
lemma fallbackEstimate_bounds (now : ℚ) (n : ℕ)
    (best lastScore lastPlayedDays slopePerDay slopePerRun
      deficit meanPos stdPos epsImprovement : ℚ)
    (havePairs : Bool) (dtDays : List ℚ) (hdef : 0 < deficit) (r : ℤ)
    (h : (fallbackEstimate now n best lastScore lastPlayedDays slopePerDay slopePerRun
        deficit meanPos stdPos epsImprovement havePairs dtDays).runsExpected = some r) :
    ∃ lo hi, (fallbackEstimate now n best lastScore lastPlayedDays slopePerDay slopePerRun
        deficit meanPos stdPos epsImprovement havePairs dtDays).runsLo = some lo ∧
      (fallbackEstimate now n best lastScore lastPlayedDays slopePerDay slopePerRun
        deficit meanPos stdPos epsImprovement havePairs dtDays).runsHi = some hi ∧
      1 ≤ lo ∧ lo ≤ r ∧ r ≤ hi ∧ lo < hi := by
  simp only [fallbackEstimate] at h ⊢
  by_cases hc : 500 < deficit / max (1 / 1000000) meanPos ∨
      max (1 / 1000000) meanPos < epsImprovement * (1 / 4)
  · rw [if_pos hc] at h
    exact absurd h (by simp)
  · rw [if_neg hc] at h ⊢
    have hr : ⌈deficit / max (1 / 1000000) meanPos⌉ = r := by
      simpa using h
    subst hr
    have hsprpos : (0 : ℚ) < max (1 / 1000000) meanPos :=
      lt_of_lt_of_le (by norm_num) (le_max_left _ _)
    have h1 : 1 ≤ ⌈deficit / max (1 / 1000000) meanPos⌉ := by
      have : (0 : ℤ) < ⌈deficit / max (1 / 1000000) meanPos⌉ :=
        Int.ceil_pos.mpr (div_pos hdef hsprpos)
      omega
    have hcle : clamp (3 / 20 + 11 / 20 * (3 / 5 * min 1 ((dtDays.length : ℚ) / 24) +
        2 / 5 * (if 1 / 1000000 < meanPos then clamp (1 - min 2 (stdPos / max 1 meanPos)) 0 1
          else 0)) - 3 / 20 * clamp (lastPlayedDays / 21) 0 1) 0 1 ≤ 1 :=
      clamp_le_of_le zero_le_one
    have hsle : (if 1 / 1000000 < meanPos then clamp (1 - min 2 (stdPos / max 1 meanPos)) 0 1
        else 0) ≤ 1 := by
      split_ifs
      · exact clamp_le_of_le zero_le_one
      · norm_num
    have hw : (0 : ℚ) ≤ 7 / 25 + 8 / 25 * (1 - clamp (3 / 20 + 11 / 20 *
        (3 / 5 * min 1 ((dtDays.length : ℚ) / 24) +
          2 / 5 * (if 1 / 1000000 < meanPos then clamp (1 - min 2 (stdPos / max 1 meanPos)) 0 1
            else 0)) - 3 / 20 * clamp (lastPlayedDays / 21) 0 1) 0 1) +
        3 / 25 * (1 - (if 1 / 1000000 < meanPos then
          clamp (1 - min 2 (stdPos / max 1 meanPos)) 0 1 else 0)) :=
      widen_nonneg (by norm_num) (by norm_num) (by norm_num) hcle hsle
    obtain ⟨hb1, hb2, hb3, hb4⟩ :=
      runsWiden_bounds ⌈deficit / max (1 / 1000000) meanPos⌉ _ h1 hw
    exact ⟨_, _, rfl, rfl, hb1, hb2, hb3, hb4⟩

/-- The optimized forecast's bounds always bracket its `runsExpected`. -/
lemma optimizedResult_bounds (now : ℚ) (n : ℕ)
    (best lastScore lastPlayedDays slopePerDay slopePerRun meanPos stdPos : ℚ)
    (fit : FitResult) (dtDays : List ℚ) (o : OptResult) (r : ℤ)
    (h : (optimizedResult now n best lastScore lastPlayedDays slopePerDay slopePerRun
        meanPos stdPos fit dtDays o).runsExpected = some r) :
    ∃ lo hi, (optimizedResult now n best lastScore lastPlayedDays slopePerDay slopePerRun
        meanPos stdPos fit dtDays o).runsLo = some lo ∧
      (optimizedResult now n best lastScore lastPlayedDays slopePerDay slopePerRun
        meanPos stdPos fit dtDays o).runsHi = some hi ∧
      1 ≤ lo ∧ lo ≤ r ∧ r ≤ hi ∧ lo < hi := by
  simp only [optimizedResult] at h ⊢
  have hr : max 1 ⌈o.runs⌉ = r := by simpa using h
  subst hr
  have h1 : (1 : ℤ) ≤ max 1 ⌈o.runs⌉ := le_max_left _ _
  have hcle : clamp (3 / 20 + 11 / 20 * (7 / 10 * fit.r2 +
      3 / 10 * min 1 ((dtDays.length : ℚ) / 24)) +
      3 / 10 * (if 1 / 1000000 < meanPos then clamp (1 - min 2 (stdPos / max 1 meanPos)) 0 1
        else 0) - 1 / 5 * clamp (lastPlayedDays / 21) 0 1) 0 1 ≤ 1 :=
    clamp_le_of_le zero_le_one
  have hsle : (if 1 / 1000000 < meanPos then clamp (1 - min 2 (stdPos / max 1 meanPos)) 0 1
      else 0) ≤ 1 := by
    split_ifs
    · exact clamp_le_of_le zero_le_one
    · norm_num
  have hw : (0 : ℚ) ≤ 11 / 50 + 3 / 10 * (1 - clamp (3 / 20 + 11 / 20 * (7 / 10 * fit.r2 +
      3 / 10 * min 1 ((dtDays.length : ℚ) / 24)) +
      3 / 10 * (if 1 / 1000000 < meanPos then clamp (1 - min 2 (stdPos / max 1 meanPos)) 0 1
        else 0) - 1 / 5 * clamp (lastPlayedDays / 21) 0 1) 0 1) +
      3 / 25 * (1 - (if 1 / 1000000 < meanPos then
        clamp (1 - min 2 (stdPos / max 1 meanPos)) 0 1 else 0)) :=
    widen_nonneg (by norm_num) (by norm_num) (by norm_num) hcle hsle
  obtain ⟨hb1, hb2, hb3, hb4⟩ := runsWiden_bounds (max 1 ⌈o.runs⌉) _ h1 hw
  exact ⟨_, _, rfl, rfl, hb1, hb2, hb3, hb4⟩

/-- Both outcomes of the optimizer guard bracket a reported `runsExpected`. -/
lemma optBranch_bounds (now : ℚ) (n : ℕ)
    (best lastScore lastPlayedDays slopePerDay slopePerRun
      deficit meanPos stdPos epsImprovement : ℚ) (fit : FitResult) (havePairs : Bool)
    (dtDays : List ℚ) (opt : Option OptResult) (hdef : 0 < deficit) (r : ℤ)
    (h : (optBranch now n best lastScore lastPlayedDays slopePerDay slopePerRun
        deficit meanPos stdPos epsImprovement fit havePairs dtDays opt).runsExpected = some r) :
    ∃ lo hi, (optBranch now n best lastScore lastPlayedDays slopePerDay slopePerRun
        deficit meanPos stdPos epsImprovement fit havePairs dtDays opt).runsLo = some lo ∧
      (optBranch now n best lastScore lastPlayedDays slopePerDay slopePerRun
        deficit meanPos stdPos epsImprovement fit havePairs dtDays opt).runsHi = some hi ∧
      1 ≤ lo ∧ lo ≤ r ∧ r ≤ hi ∧ lo < hi := by
  cases opt with
  | none =>
    rw [optBranch] at h ⊢
    exact fallbackEstimate_bounds now n best lastScore lastPlayedDays slopePerDay slopePerRun
      deficit meanPos stdPos epsImprovement havePairs dtDays hdef r h
  | some o =>
    rw [optBranch] at h ⊢
    by_cases hc : 500 < o.runs ∨ o.delta < epsImprovement
    · rw [if_pos hc] at h ⊢
      exact fallbackEstimate_bounds now n best lastScore lastPlayedDays slopePerDay slopePerRun
        deficit meanPos stdPos epsImprovement havePairs dtDays hdef r h
    · rw [if_neg hc] at h ⊢
      exact optimizedResult_bounds now n best lastScore lastPlayedDays slopePerDay slopePerRun
        meanPos stdPos fit dtDays o r h

/-- Claim C10 (**runs range invariant**): whenever `predictNextHighscore`
returns a non-null `runsExpected`, both `runsLo` and `runsHi` are non-null
and satisfy `1 ≤ runsLo ≤ runsExpected ≤ runsHi` with `runsLo < runsHi`, on
every return path. -/
theorem C10_runs_range (ops : RealOps) (now : ℚ) (items : List SRecord) (name : String) (r : ℤ)
    (h : (predictNextHighscore ops now items name).runsExpected = some r) :
    ∃ lo hi, (predictNextHighscore ops now items name).runsLo = some lo ∧
      (predictNextHighscore ops now items name).runsHi = some hi ∧
      1 ≤ lo ∧ lo ≤ r ∧ r ≤ hi ∧ lo < hi := by
  simp only [predictNextHighscore] at h ⊢
  by_cases h4 : (collectScenarioHistory now items name).length < 4
  · rw [if_pos h4] at h
    exact absurd h (by simp [insufficientResult])
  · rw [if_neg h4] at h ⊢
    by_cases hnb : maxQ ((collectScenarioHistory now items name).map (fun h => h.score)) -
        ((collectScenarioHistory now items name).getD
          ((collectScenarioHistory now items name).length - 1) ⟨0, 0, 0⟩).score ≤
        max 1 ((jround (maxQ ((collectScenarioHistory now items name).map (fun h => h.score)) *
          (2 / 10000)) : ℚ))
    · rw [if_pos hnb] at h ⊢
      replace h : some (1 : ℤ) = some r := h
      obtain rfl : (1 : ℤ) = r := Option.some.inj h
      exact ⟨1, 2, rfl, rfl, by omega, by omega, by omega, by omega⟩
    · rw [if_neg hnb] at h ⊢
      have hdef : 0 < maxQ ((collectScenarioHistory now items name).map (fun h => h.score)) +
          max 1 ((jround (maxQ ((collectScenarioHistory now items name).map
            (fun h => h.score)) * (3 / 1000)) : ℚ)) -
          ((collectScenarioHistory now items name).getD
            ((collectScenarioHistory now items name).length - 1) ⟨0, 0, 0⟩).score := by
        push_neg at hnb
        have he : (1 : ℚ) ≤ max 1 ((jround (maxQ ((collectScenarioHistory now items name).map
            (fun h => h.score)) * (2 / 10000)) : ℚ)) := le_max_left _ _
        have hm : (1 : ℚ) ≤ max 1 ((jround (maxQ ((collectScenarioHistory now items name).map
            (fun h => h.score)) * (3 / 1000)) : ℚ)) := le_max_left _ _
        linarith
      exact optBranch_bounds _ _ _ _ _ _ _ _ _ _ _ _ _ _ _ hdef r h

/-- Witness for C10 at a concrete near-best input. -/
theorem C10_runs_range_witness :
    ((predictNextHighscore ⟨fun _ => 0, fun _ => 0, fun _ => 0, fun _ => 0, fun _ => 0⟩ 0
        [⟨"X", JSV.num 5, some 0⟩, ⟨"X", JSV.num 5, some 3600000⟩,
          ⟨"X", JSV.num 5, some 7200000⟩, ⟨"X", JSV.num 5, some 10800000⟩] "X").runsExpected =
      some 1) ∧
    ∃ lo hi, (predictNextHighscore ⟨fun _ => 0, fun _ => 0, fun _ => 0, fun _ => 0, fun _ => 0⟩ 0
        [⟨"X", JSV.num 5, some 0⟩, ⟨"X", JSV.num 5, some 3600000⟩,
          ⟨"X", JSV.num 5, some 7200000⟩, ⟨"X", JSV.num 5, some 10800000⟩] "X").runsLo =
        some lo ∧
      (predictNextHighscore ⟨fun _ => 0, fun _ => 0, fun _ => 0, fun _ => 0, fun _ => 0⟩ 0
        [⟨"X", JSV.num 5, some 0⟩, ⟨"X", JSV.num 5, some 3600000⟩,
          ⟨"X", JSV.num 5, some 7200000⟩, ⟨"X", JSV.num 5, some 10800000⟩] "X").runsHi =
        some hi ∧
      1 ≤ lo ∧ lo ≤ 1 ∧ 1 ≤ hi ∧ lo < hi := by
  have hcollect : collectScenarioHistory 0 [⟨"X", JSV.num 5, some 0⟩,
      ⟨"X", JSV.num 5, some 3600000⟩, ⟨"X", JSV.num 5, some 7200000⟩,
      ⟨"X", JSV.num 5, some 10800000⟩] "X" =
      [⟨0, 5, 1⟩, ⟨3600000, 5, 2⟩, ⟨7200000, 5, 3⟩, ⟨10800000, 5, 4⟩] := by
    norm_num [collectScenarioHistory, sortByT, filteredRuns, parseRecordTimestamp,
      List.insertionSort, List.orderedInsert, sessionWalk, nextSid, gapMsDefault,
      SESSION_GAP_MIN]
  have h4' : ¬(collectScenarioHistory 0 [⟨"X", JSV.num 5, some 0⟩,
      ⟨"X", JSV.num 5, some 3600000⟩, ⟨"X", JSV.num 5, some 7200000⟩,
      ⟨"X", JSV.num 5, some 10800000⟩] "X").length < 4 := by
    rw [hcollect]
    norm_num
  have hcond : maxQ ((collectScenarioHistory 0 [⟨"X", JSV.num 5, some 0⟩,
      ⟨"X", JSV.num 5, some 3600000⟩, ⟨"X", JSV.num 5, some 7200000⟩,
      ⟨"X", JSV.num 5, some 10800000⟩] "X").map (fun h => h.score)) -
      ((collectScenarioHistory 0 [⟨"X", JSV.num 5, some 0⟩, ⟨"X", JSV.num 5, some 3600000⟩,
        ⟨"X", JSV.num 5, some 7200000⟩, ⟨"X", JSV.num 5, some 10800000⟩] "X").getD
        ((collectScenarioHistory 0 [⟨"X", JSV.num 5, some 0⟩, ⟨"X", JSV.num 5, some 3600000⟩,
          ⟨"X", JSV.num 5, some 7200000⟩, ⟨"X", JSV.num 5, some 10800000⟩] "X").length - 1)
        ⟨0, 0, 0⟩).score ≤
      max 1 ((jround (maxQ ((collectScenarioHistory 0 [⟨"X", JSV.num 5, some 0⟩,
        ⟨"X", JSV.num 5, some 3600000⟩, ⟨"X", JSV.num 5, some 7200000⟩,
        ⟨"X", JSV.num 5, some 10800000⟩] "X").map (fun h => h.score)) * (2 / 10000)) : ℚ)) := by
    rw [hcollect]
    norm_num [maxQ]
  have h : (predictNextHighscore ⟨fun _ => 0, fun _ => 0, fun _ => 0, fun _ => 0, fun _ => 0⟩ 0
      [⟨"X", JSV.num 5, some 0⟩, ⟨"X", JSV.num 5, some 3600000⟩,
        ⟨"X", JSV.num 5, some 7200000⟩, ⟨"X", JSV.num 5, some 10800000⟩] "X").runsExpected =
      some 1 := by
    simp only [predictNextHighscore]
    rw [if_neg h4', if_pos hcond]
    rfl
  exact ⟨h, C10_runs_range ⟨fun _ => 0, fun _ => 0, fun _ => 0, fun _ => 0, fun _ => 0⟩ 0
    [⟨"X", JSV.num 5, some 0⟩, ⟨"X", JSV.num 5, some 3600000⟩,
      ⟨"X", JSV.num 5, some 7200000⟩, ⟨"X", JSV.num 5, some 10800000⟩] "X" 1 h⟩

/-- Claim C3 amended (**referential transparency given the clock**): every
core function is a pure function of its explicit inputs plus the ambient
clock.  The four analysis functions read no clock at all; `predictNextHighscore`
(and session grouping, through the timestamp-parse `Date.now()` fallback and
the recency weighting) additionally depends on the call time, so only calls
at the same time are guaranteed identical outputs. -/
theorem C3_referential_transparency (sqrtF : ℚ → ℚ) (ops : RealOps) (now₁ now₂ : ℚ)
    (items : List SRecord) (name : String) (runs : List (List SLRecord)) (metric : Metric)
    (byIdx : List ℚ × List ℚ) (curve : List ℚ) (ls : Option LengthStats)
    (hnow : now₁ = now₂) :
    predictNextHighscore ops now₁ items name = predictNextHighscore ops now₂ items name ∧
    collectScenarioHistory now₁ items name = collectScenarioHistory now₂ items name ∧
    expectedByIndex sqrtF runs metric = expectedByIndex sqrtF runs metric ∧
    expectedBestVsLength runs metric = expectedBestVsLength runs metric ∧
    recommendLengths byIdx curve ls = recommendLengths byIdx curve ls := by
  subst hnow
  exact ⟨rfl, rfl, rfl, rfl, rfl⟩

/-- Witness for the amended C3 at concrete inputs with equal call times. -/
theorem C3_referential_transparency_witness :
    ((0 : ℚ) = 0) ∧
    (predictNextHighscore ⟨fun _ => 0, fun _ => 0, fun _ => 0, fun _ => 0, fun _ => 0⟩ 0 [] "X" =
      predictNextHighscore ⟨fun _ => 0, fun _ => 0, fun _ => 0, fun _ => 0, fun _ => 0⟩ 0 [] "X" ∧
     collectScenarioHistory 0 [] "X" = collectScenarioHistory 0 [] "X" ∧
     expectedByIndex (fun q => q) [] .score = expectedByIndex (fun q => q) [] .score ∧
     expectedBestVsLength [] .score = expectedBestVsLength [] .score ∧
     recommendLengths ([], []) [] none = recommendLengths ([], []) [] none) :=
  ⟨rfl, C3_referential_transparency (fun q => q)
    ⟨fun _ => 0, fun _ => 0, fun _ => 0, fun _ => 0, fun _ => 0⟩ 0 0 [] "X" [] .score
    ([], []) [] none rfl⟩

/-- Counterexample to C3 as stated: `predictNextHighscore` reads the ambient
clock (`Date.now()`), so two calls with identical explicit inputs (records
and scenario name) made at different times return different outputs — here
the ETA shifts with the call time. -/
theorem C3_clock_dependence :
    predictNextHighscore ⟨fun _ => 0, fun _ => 0, fun _ => 0, fun _ => 0, fun _ => 0⟩ 0
      [⟨"X", JSV.num 5, some 0⟩, ⟨"X", JSV.num 5, some 3600000⟩,
        ⟨"X", JSV.num 5, some 7200000⟩, ⟨"X", JSV.num 5, some 10800000⟩] "X" ≠
    predictNextHighscore ⟨fun _ => 0, fun _ => 0, fun _ => 0, fun _ => 0, fun _ => 0⟩ 86400000
      [⟨"X", JSV.num 5, some 0⟩, ⟨"X", JSV.num 5, some 3600000⟩,
        ⟨"X", JSV.num 5, some 7200000⟩, ⟨"X", JSV.num 5, some 10800000⟩] "X" := by
  have hc1 : collectScenarioHistory 0 [⟨"X", JSV.num 5, some 0⟩,
      ⟨"X", JSV.num 5, some 3600000⟩, ⟨"X", JSV.num 5, some 7200000⟩,
      ⟨"X", JSV.num 5, some 10800000⟩] "X" =
      [⟨0, 5, 1⟩, ⟨3600000, 5, 2⟩, ⟨7200000, 5, 3⟩, ⟨10800000, 5, 4⟩] := by
    norm_num [collectScenarioHistory, sortByT, filteredRuns, parseRecordTimestamp,
      List.insertionSort, List.orderedInsert, sessionWalk, nextSid, gapMsDefault,
      SESSION_GAP_MIN]
  have hc2 : collectScenarioHistory 86400000 [⟨"X", JSV.num 5, some 0⟩,
      ⟨"X", JSV.num 5, some 3600000⟩, ⟨"X", JSV.num 5, some 7200000⟩,
      ⟨"X", JSV.num 5, some 10800000⟩] "X" =
      [⟨0, 5, 1⟩, ⟨3600000, 5, 2⟩, ⟨7200000, 5, 3⟩, ⟨10800000, 5, 4⟩] := by
    norm_num [collectScenarioHistory, sortByT, filteredRuns, parseRecordTimestamp,
      List.insertionSort, List.orderedInsert, sessionWalk, nextSid, gapMsDefault,
      SESSION_GAP_MIN]
  have hcond1 : maxQ ((collectScenarioHistory 0 [⟨"X", JSV.num 5, some 0⟩,
      ⟨"X", JSV.num 5, some 3600000⟩, ⟨"X", JSV.num 5, some 7200000⟩,
      ⟨"X", JSV.num 5, some 10800000⟩] "X").map (fun h => h.score)) -
      ((collectScenarioHistory 0 [⟨"X", JSV.num 5, some 0⟩, ⟨"X", JSV.num 5, some 3600000⟩,
        ⟨"X", JSV.num 5, some 7200000⟩, ⟨"X", JSV.num 5, some 10800000⟩] "X").getD
        ((collectScenarioHistory 0 [⟨"X", JSV.num 5, some 0⟩, ⟨"X", JSV.num 5, some 3600000⟩,
          ⟨"X", JSV.num 5, some 7200000⟩, ⟨"X", JSV.num 5, some 10800000⟩] "X").length - 1)
        ⟨0, 0, 0⟩).score ≤
      max 1 ((jround (maxQ ((collectScenarioHistory 0 [⟨"X", JSV.num 5, some 0⟩,
        ⟨"X", JSV.num 5, some 3600000⟩, ⟨"X", JSV.num 5, some 7200000⟩,
        ⟨"X", JSV.num 5, some 10800000⟩] "X").map (fun h => h.score)) * (2 / 10000)) : ℚ)) := by
    rw [hc1]
    norm_num [maxQ]
  have hcond2 : maxQ ((collectScenarioHistory 86400000 [⟨"X", JSV.num 5, some 0⟩,
      ⟨"X", JSV.num 5, some 3600000⟩, ⟨"X", JSV.num 5, some 7200000⟩,
      ⟨"X", JSV.num 5, some 10800000⟩] "X").map (fun h => h.score)) -
      ((collectScenarioHistory 86400000 [⟨"X", JSV.num 5, some 0⟩,
        ⟨"X", JSV.num 5, some 3600000⟩,
        ⟨"X", JSV.num 5, some 7200000⟩, ⟨"X", JSV.num 5, some 10800000⟩] "X").getD
        ((collectScenarioHistory 86400000 [⟨"X", JSV.num 5, some 0⟩,
          ⟨"X", JSV.num 5, some 3600000⟩,
          ⟨"X", JSV.num 5, some 7200000⟩, ⟨"X", JSV.num 5, some 10800000⟩] "X").length - 1)
        ⟨0, 0, 0⟩).score ≤
      max 1 ((jround (maxQ ((collectScenarioHistory 86400000 [⟨"X", JSV.num 5, some 0⟩,
        ⟨"X", JSV.num 5, some 3600000⟩, ⟨"X", JSV.num 5, some 7200000⟩,
        ⟨"X", JSV.num 5, some 10800000⟩] "X").map (fun h => h.score)) * (2 / 10000)) : ℚ)) := by
    rw [hc2]
    norm_num [maxQ]
  have e1 : (predictNextHighscore ⟨fun _ => 0, fun _ => 0, fun _ => 0, fun _ => 0, fun _ => 0⟩ 0
      [⟨"X", JSV.num 5, some 0⟩, ⟨"X", JSV.num 5, some 3600000⟩,
        ⟨"X", JSV.num 5, some 7200000⟩, ⟨"X", JSV.num 5, some 10800000⟩] "X").etaTs =
      some (0 + max (DAY * (1 / 4)) (((max 1 (jround (quantile
        (buildPairs ⟨fun _ => 0, fun _ => 0, fun _ => 0, fun _ => 0, fun _ => 0⟩
          [⟨0, 5, 1⟩, ⟨3600000, 5, 2⟩, ⟨7200000, 5, 3⟩, ⟨10800000, 5, 4⟩]).1 (1 / 4) * 24)) :
          ℤ) : ℚ) * (60 * 60 * 1000))) := by
    simp only [predictNextHighscore]
    rw [if_neg (by rw [hc1]; norm_num), if_pos hcond1]
    simp only [nearBestResult]
    rw [hc1]
  have e2 : (predictNextHighscore ⟨fun _ => 0, fun _ => 0, fun _ => 0, fun _ => 0, fun _ => 0⟩
      86400000 [⟨"X", JSV.num 5, some 0⟩, ⟨"X", JSV.num 5, some 3600000⟩,
        ⟨"X", JSV.num 5, some 7200000⟩, ⟨"X", JSV.num 5, some 10800000⟩] "X").etaTs =
      some (86400000 + max (DAY * (1 / 4)) (((max 1 (jround (quantile
        (buildPairs ⟨fun _ => 0, fun _ => 0, fun _ => 0, fun _ => 0, fun _ => 0⟩
          [⟨0, 5, 1⟩, ⟨3600000, 5, 2⟩, ⟨7200000, 5, 3⟩, ⟨10800000, 5, 4⟩]).1 (1 / 4) * 24)) :
          ℤ) : ℚ) * (60 * 60 * 1000))) := by
    simp only [predictNextHighscore]
    rw [if_neg (by rw [hc2]; norm_num), if_pos hcond2]
    simp only [nearBestResult]
    rw [hc2]
  intro heq
  rw [heq, e2] at e1
  have := Option.some.inj e1
  linarith

/-! Same-session pairing and IQR clipping (claim C7). -/

/-- Spec-shaped description of the paired observations: the adjacent pairs of
the chronological history whose two runs share a `sessionId` (cross-session
pairs excluded), for comparison with the source's loop. -/
def sameSessionAdjacentPairs (hist : List Run) : List (Run × Run) :=
  (hist.zip hist.tail).filter (fun p => decide (p.1.sessionId = p.2.sessionId))

lemma buildPairsGo_spec (ops : RealOps) (nq : ℚ) :
    ∀ (hist : List Run) (i : ℕ),
      (buildPairsGo ops nq i hist).1 = (sameSessionAdjacentPairs hist).map
        (fun p => max (1 / (24 * 60)) ((p.2.t - p.1.t) / DAY)) ∧
      (buildPairsGo ops nq i hist).2.1 = (sameSessionAdjacentPairs hist).map
        (fun p => p.2.score - p.1.score) := by
  intro hist
  induction hist with
  | nil => intro i; exact ⟨rfl, rfl⟩
  | cons a rest ih =>
    intro i
    cases rest with
    | nil => exact ⟨rfl, rfl⟩
    | cons b rest' =>
      have ihs := ih (i + 1)
      by_cases hs : a.sessionId = b.sessionId
      · simp only [buildPairsGo, if_pos hs, sameSessionAdjacentPairs, List.tail_cons,
          List.zip_cons_cons, List.filter_cons, hs, decide_True, if_true, List.map_cons]
        rw [sameSessionAdjacentPairs, List.tail_cons] at ihs
        exact ⟨congrArg (List.cons _) ihs.1, congrArg (List.cons _) ihs.2⟩
      · simp only [buildPairsGo, if_neg hs, sameSessionAdjacentPairs, List.tail_cons,
          List.zip_cons_cons, List.filter_cons, hs, decide_False, if_false]
        rw [sameSessionAdjacentPairs, List.tail_cons] at ihs
        simp only [Bool.false_eq_true, if_false]
        exact ihs

/-- At an in-range position the interpolated value lies between the floor and
ceiling grid values. -/
lemma interpAt_between (g : ℕ → ℚ) (len : ℕ)
    (hg : ∀ i j : ℕ, i ≤ j → j < len → g i ≤ g j)
    (pos : ℚ) (h0 : 0 ≤ pos) (hub : pos ≤ (len : ℚ) - 1) :
    g (⌊pos⌋.toNat) ≤ interpAt g pos ∧ interpAt g pos ≤ g (⌈pos⌉.toNat) := by
  have hlen1 : 1 ≤ len := by
    by_contra hc
    have : len = 0 := by omega
    rw [this] at hub
    norm_num at hub
    linarith
  have hlo0 : 0 ≤ ⌊pos⌋ := Int.floor_nonneg.mpr h0
  have hhi0 : 0 ≤ ⌈pos⌉ := le_trans hlo0 (Int.floor_le_ceil pos)
  have hcast : ((len : ℚ) - 1) = (((len : ℤ) - 1 : ℤ) : ℚ) := by push_cast; ring
  have hceil_le : ⌈pos⌉ ≤ (len : ℤ) - 1 := by
    rw [hcast] at hub
    exact Int.ceil_le.mpr hub
  have hceil_lt : ⌈pos⌉.toNat < len := by omega
  have hfl_le : ⌊pos⌋ ≤ ⌈pos⌉ := Int.floor_le_ceil pos
  by_cases hfl : ⌈pos⌉ = ⌊pos⌋
  · constructor
    · simp only [interpAt, if_pos hfl]
      exact le_refl _
    · simp only [interpAt, if_pos hfl]
      rw [hfl]
  · simp only [interpAt, if_neg hfl]
    have hf0 : (0 : ℚ) ≤ pos - ⌊pos⌋ := by linarith [Int.floor_le pos]
    have hf1 : pos - ⌊pos⌋ ≤ 1 := by linarith [Int.lt_floor_add_one pos]
    have hglo_le : g ⌊pos⌋.toNat ≤ g ⌈pos⌉.toNat := hg _ _ (by omega) hceil_lt
    constructor
    · nlinarith
    · nlinarith

/-- Monotonicity of the interpolation in the position, over a grid that is
monotone below `len`. -/
lemma interpAt_mono (g : ℕ → ℚ) (len : ℕ)
    (hg : ∀ i j : ℕ, i ≤ j → j < len → g i ≤ g j)
    (pos₁ pos₂ : ℚ) (h0 : 0 ≤ pos₁) (h12 : pos₁ ≤ pos₂) (hub : pos₂ ≤ (len : ℚ) - 1) :
    interpAt g pos₁ ≤ interpAt g pos₂ := by
  have h0₂ : 0 ≤ pos₂ := le_trans h0 h12
  have hub₁ : pos₁ ≤ (len : ℚ) - 1 := le_trans h12 hub
  obtain ⟨hlow₁, hup₁⟩ := interpAt_between g len hg pos₁ h0 hub₁
  obtain ⟨hlow₂, hup₂⟩ := interpAt_between g len hg pos₂ h0₂ hub
  have hcast : ((len : ℚ) - 1) = (((len : ℤ) - 1 : ℤ) : ℚ) := by push_cast; ring
  have hfl₂_le : ⌊pos₂⌋ ≤ (len : ℤ) - 1 := by
    have := Int.floor_le_floor hub
    rwa [hcast, Int.floor_intCast] at this
  have hlo0₁ : 0 ≤ ⌊pos₁⌋ := Int.floor_nonneg.mpr h0
  have hlo0₂ : 0 ≤ ⌊pos₂⌋ := Int.floor_nonneg.mpr h0₂
  by_cases hcc : ⌈pos₁⌉ ≤ ⌊pos₂⌋
  · have hhi0₁ : 0 ≤ ⌈pos₁⌉ := le_trans hlo0₁ (Int.floor_le_ceil pos₁)
    have hmid : g ⌈pos₁⌉.toNat ≤ g ⌊pos₂⌋.toNat := hg _ _ (by omega) (by omega)
    linarith
  · push_neg at hcc
    have hffle : ⌊pos₁⌋ ≤ ⌊pos₂⌋ := Int.floor_le_floor h12
    have hc1ub := Int.ceil_le_floor_add_one pos₁
    have hfe : ⌊pos₁⌋ = ⌊pos₂⌋ := by omega
    by_cases he1 : ⌈pos₁⌉ = ⌊pos₁⌋
    · have h1 : interpAt g pos₁ = g ⌊pos₁⌋.toNat := by
        simp only [interpAt, if_pos he1]
      rw [h1, hfe]
      exact hlow₂
    · have he2 : ¬⌈pos₂⌉ = ⌊pos₂⌋ := by
        intro h
        have hp2 : pos₂ = (⌊pos₂⌋ : ℚ) := by
          have h1 : pos₂ ≤ (⌊pos₂⌋ : ℚ) := by
            calc pos₂ ≤ (⌈pos₂⌉ : ℚ) := Int.le_ceil _
            _ = (⌊pos₂⌋ : ℚ) := by exact_mod_cast congrArg Int.cast h
          exact le_antisymm h1 (Int.floor_le _)
        have hp1 : pos₁ = (⌊pos₁⌋ : ℚ) := by
          have h1 : pos₁ ≤ (⌊pos₁⌋ : ℚ) := by
            rw [hfe]
            rw [hp2] at h12
            exact h12
          exact le_antisymm h1 (Int.floor_le _)
        apply he1
        rw [hp1, Int.ceil_intCast, Int.floor_intCast]
      have hc1 : ⌈pos₁⌉ = ⌊pos₁⌋ + 1 := by
        have := Int.floor_le_ceil pos₁
        omega
      have hc2 : ⌈pos₂⌉ = ⌊pos₂⌋ + 1 := by
        have h1 := Int.ceil_le_floor_add_one pos₂
        have h2 := Int.floor_le_ceil pos₂
        omega
      simp only [interpAt, if_neg he1, if_neg he2]
      rw [hc1, hc2, hfe]
      have hceil₂_le : ⌊pos₂⌋ + 1 ≤ (len : ℤ) - 1 := by
        have h1 : ⌈pos₂⌉ ≤ (len : ℤ) - 1 := by
          rw [hcast] at hub
          exact Int.ceil_le.mpr hub
        omega
      have hgk : g ⌊pos₂⌋.toNat ≤ g (⌊pos₂⌋ + 1).toNat := hg _ _ (by omega) (by omega)
      have hdiff : (0 : ℚ) ≤ pos₂ - pos₁ := by linarith
      nlinarith [hgk, hdiff]

/-- `quantile` is monotone in the quantile parameter. -/
lemma quantile_mono (arr : List ℚ) {p q : ℚ} (hpq : p ≤ q) :
    quantile arr p ≤ quantile arr q := by
  rw [quantile, quantile]
  by_cases hlen : arr.length = 0
  · rw [if_pos hlen, if_pos hlen]
  · rw [if_neg hlen, if_neg hlen]
    have hsorted : (List.insertionSort (fun x y : ℚ => x ≤ y) arr).Sorted
        (fun x y : ℚ => x ≤ y) := List.sorted_insertionSort _ _
    have halen : (List.insertionSort (fun x y : ℚ => x ≤ y) arr).length = arr.length :=
      (List.perm_insertionSort _ arr).length_eq
    have hlen1 : 1 ≤ (List.insertionSort (fun x y : ℚ => x ≤ y) arr).length := by omega
    have hg : ∀ i j : ℕ, i ≤ j → j < (List.insertionSort (fun x y : ℚ => x ≤ y) arr).length →
        (List.insertionSort (fun x y : ℚ => x ≤ y) arr).getD i 0 ≤
          (List.insertionSort (fun x y : ℚ => x ≤ y) arr).getD j 0 := by
      intro i j hij hj
      rcases eq_or_lt_of_le hij with rfl | hlt
      · exact le_refl _
      · have hi : i < (List.insertionSort (fun x y : ℚ => x ≤ y) arr).length :=
          lt_trans hlt hj
        rw [List.getD_eq_getElem _ _ hi, List.getD_eq_getElem _ _ hj]
        have := List.pairwise_iff_get.mp hsorted ⟨i, hi⟩ ⟨j, hj⟩ hlt
        simpa using this
    have hq0 : (0 : ℚ) ≤ clamp p 0 1 := le_max_left _ _
    have hle : clamp p 0 1 ≤ clamp q 0 1 := by
      rw [clamp, clamp]
      exact max_le_max (le_refl 0) (min_le_min (le_refl 1) hpq)
    have hub : clamp q 0 1 ≤ 1 := clamp_le_of_le zero_le_one
    have hlen0 : (0 : ℚ) ≤ ((List.insertionSort (fun x y : ℚ => x ≤ y) arr).length : ℚ) - 1 := by
      have : (1 : ℚ) ≤ ((List.insertionSort (fun x y : ℚ => x ≤ y) arr).length : ℚ) := by
        exact_mod_cast hlen1
      linarith
    exact interpAt_mono _ (List.insertionSort (fun x y : ℚ => x ≤ y) arr).length hg _ _
      (mul_nonneg hq0 hlen0) (mul_le_mul_of_nonneg_right hle hlen0)
      (le_trans (mul_le_mul_of_nonneg_right hub hlen0) (le_of_eq (one_mul _)))

/-- Claim C7 amended (**same-session pairs and IQR clipping**): the paired
observations are built exactly from the adjacent same-session pairs
(cross-session pairs excluded), and with at least 6 pairs every Δscore is
clipped into `[Q1 − 1.5·IQReff, Q3 + 1.5·IQReff]` where
`IQReff = max(1, Q3 − Q1)` is the IQR floored at 1 point (the source floors
the IQR, so for samples with true IQR below 1 the clipping interval is wider
than the plain `[Q1 − 1.5·IQR, Q3 + 1.5·IQR]`). -/
theorem C7_same_session_pairs_and_clipping (ops : RealOps) (hist : List Run)
    (deltas : List ℚ) (h6 : 6 ≤ deltas.length) :
    ((buildPairs ops hist).1 = (sameSessionAdjacentPairs hist).map
        (fun p => max (1 / (24 * 60)) ((p.2.t - p.1.t) / DAY)) ∧
      (buildPairs ops hist).2.1 = (sameSessionAdjacentPairs hist).map
        (fun p => p.2.score - p.1.score)) ∧
    ∀ x ∈ clipDeltas deltas,
      quantile deltas (1 / 4) -
          3 / 2 * max 1 (quantile deltas (3 / 4) - quantile deltas (1 / 4)) ≤ x ∧
      x ≤ quantile deltas (3 / 4) +
          3 / 2 * max 1 (quantile deltas (3 / 4) - quantile deltas (1 / 4)) := by
  constructor
  · exact buildPairsGo_spec ops (hist.length : ℚ) hist 1
  · intro x hx
    rw [clipDeltas, if_pos h6] at hx
    obtain ⟨y, _, rfl⟩ := List.mem_map.mp hx
    have hq : quantile deltas (1 / 4) ≤ quantile deltas (3 / 4) :=
      quantile_mono deltas (by norm_num)
    have hiqr1 : (1 : ℚ) ≤ max 1 (quantile deltas (3 / 4) - quantile deltas (1 / 4)) :=
      le_max_left _ _
    constructor
    · exact le_max_left _ _
    · exact clamp_le_of_le (by linarith)

/-- Counterexample to C7 as stated: on seven same-session runs with scores
`0,0,0,0,0,0,10`, the Δscore sample is `[0,0,0,0,0,10]` with true
`IQR = Q3 − Q1 = 0`; the code floors the IQR at 1 and clips `10` to `1.5`,
which lies outside the plain interval `[Q1 − 1.5·IQR, Q3 + 1.5·IQR] = [0,0]`
claimed by the spec. -/
theorem C7_plain_iqr_counterexample :
    (3 / 2 : ℚ) ∈ clipDeltas ((buildPairs
      ⟨fun _ => 0, fun _ => 0, fun _ => 0, fun _ => 0, fun _ => 0⟩
      (collectScenarioHistory 0 [⟨"X", JSV.num 0, some 0⟩, ⟨"X", JSV.num 0, some 1⟩,
        ⟨"X", JSV.num 0, some 2⟩, ⟨"X", JSV.num 0, some 3⟩, ⟨"X", JSV.num 0, some 4⟩,
        ⟨"X", JSV.num 0, some 5⟩, ⟨"X", JSV.num 10, some 6⟩] "X")).2.1) ∧
    ¬((3 / 2 : ℚ) ≤ quantile ((buildPairs
        ⟨fun _ => 0, fun _ => 0, fun _ => 0, fun _ => 0, fun _ => 0⟩
        (collectScenarioHistory 0 [⟨"X", JSV.num 0, some 0⟩, ⟨"X", JSV.num 0, some 1⟩,
          ⟨"X", JSV.num 0, some 2⟩, ⟨"X", JSV.num 0, some 3⟩, ⟨"X", JSV.num 0, some 4⟩,
          ⟨"X", JSV.num 0, some 5⟩, ⟨"X", JSV.num 10, some 6⟩] "X")).2.1) (3 / 4) +
      3 / 2 * (quantile ((buildPairs
        ⟨fun _ => 0, fun _ => 0, fun _ => 0, fun _ => 0, fun _ => 0⟩
        (collectScenarioHistory 0 [⟨"X", JSV.num 0, some 0⟩, ⟨"X", JSV.num 0, some 1⟩,
          ⟨"X", JSV.num 0, some 2⟩, ⟨"X", JSV.num 0, some 3⟩, ⟨"X", JSV.num 0, some 4⟩,
          ⟨"X", JSV.num 0, some 5⟩, ⟨"X", JSV.num 10, some 6⟩] "X")).2.1) (3 / 4) -
        quantile ((buildPairs
          ⟨fun _ => 0, fun _ => 0, fun _ => 0, fun _ => 0, fun _ => 0⟩
          (collectScenarioHistory 0 [⟨"X", JSV.num 0, some 0⟩, ⟨"X", JSV.num 0, some 1⟩,
            ⟨"X", JSV.num 0, some 2⟩, ⟨"X", JSV.num 0, some 3⟩, ⟨"X", JSV.num 0, some 4⟩,
            ⟨"X", JSV.num 0, some 5⟩, ⟨"X", JSV.num 10, some 6⟩] "X")).2.1) (1 / 4))) := by
  have hc : collectScenarioHistory 0 [⟨"X", JSV.num 0, some 0⟩, ⟨"X", JSV.num 0, some 1⟩,
      ⟨"X", JSV.num 0, some 2⟩, ⟨"X", JSV.num 0, some 3⟩, ⟨"X", JSV.num 0, some 4⟩,
      ⟨"X", JSV.num 0, some 5⟩, ⟨"X", JSV.num 10, some 6⟩] "X" =
      [⟨0, 0, 1⟩, ⟨1, 0, 1⟩, ⟨2, 0, 1⟩, ⟨3, 0, 1⟩, ⟨4, 0, 1⟩, ⟨5, 0, 1⟩, ⟨6, 10, 1⟩] := by
    norm_num [collectScenarioHistory, sortByT, filteredRuns, parseRecordTimestamp,
      List.insertionSort, List.orderedInsert, sessionWalk, nextSid, gapMsDefault,
      SESSION_GAP_MIN]
  have hD : (buildPairs ⟨fun _ => 0, fun _ => 0, fun _ => 0, fun _ => 0, fun _ => 0⟩
      (collectScenarioHistory 0 [⟨"X", JSV.num 0, some 0⟩, ⟨"X", JSV.num 0, some 1⟩,
        ⟨"X", JSV.num 0, some 2⟩, ⟨"X", JSV.num 0, some 3⟩, ⟨"X", JSV.num 0, some 4⟩,
        ⟨"X", JSV.num 0, some 5⟩, ⟨"X", JSV.num 10, some 6⟩] "X")).2.1 =
      [0, 0, 0, 0, 0, 10] := by
    rw [hc]
    norm_num [buildPairs, buildPairsGo]
  rw [hD]
  have hce1 : ⌈(5 : ℚ) / 4⌉ = 2 := by
    rw [Int.ceil_eq_iff]
    norm_num
  have hce3 : ⌈(15 : ℚ) / 4⌉ = 4 := by
    rw [Int.ceil_eq_iff]
    norm_num
  have hq1 : quantile [(0 : ℚ), 0, 0, 0, 0, 10] (1 / 4) = 0 := by
    norm_num [quantile, interpAt, clamp, List.insertionSort, List.orderedInsert,
      min_def, max_def, hce1, Int.toNat_ofNat, List.getElem_cons_zero,
      List.getElem_cons_succ]
    decide
  have hq3 : quantile [(0 : ℚ), 0, 0, 0, 0, 10] (3 / 4) = 0 := by
    norm_num [quantile, interpAt, clamp, List.insertionSort, List.orderedInsert,
      min_def, max_def, hce3, Int.toNat_ofNat, List.getElem_cons_zero,
      List.getElem_cons_succ]
    have h3 : Int.toNat 3 = 3 := rfl
    have h4 : Int.toNat 4 = 4 := rfl
    simp only [h3, h4]
    norm_num
  have hclip : clipDeltas [(0 : ℚ), 0, 0, 0, 0, 10] = [0, 0, 0, 0, 0, 3 / 2] := by
    rw [clipDeltas, if_pos (by norm_num), hq1, hq3]
    norm_num [clamp, min_def, max_def]
  constructor
  · rw [hclip]
    norm_num
  · rw [hq1, hq3]
    norm_num

/-- Witness for the amended C7 at a concrete Δscore sample with 6 entries. -/
theorem C7_same_session_pairs_and_clipping_witness :
    (6 ≤ ([(0 : ℚ), 0, 0, 0, 0, 10] : List ℚ).length ∧
      (3 / 2 : ℚ) ∈ clipDeltas [(0 : ℚ), 0, 0, 0, 0, 10]) ∧
    ((buildPairs ⟨fun _ => 0, fun _ => 0, fun _ => 0, fun _ => 0, fun _ => 0⟩
        [⟨0, 0, 1⟩, ⟨1, 5, 1⟩, ⟨2000000, 7, 2⟩]).1 =
      (sameSessionAdjacentPairs [⟨0, 0, 1⟩, ⟨1, 5, 1⟩, ⟨2000000, 7, 2⟩]).map
        (fun p => max (1 / (24 * 60)) ((p.2.t - p.1.t) / DAY)) ∧
      (buildPairs ⟨fun _ => 0, fun _ => 0, fun _ => 0, fun _ => 0, fun _ => 0⟩
        [⟨0, 0, 1⟩, ⟨1, 5, 1⟩, ⟨2000000, 7, 2⟩]).2.1 =
      (sameSessionAdjacentPairs [⟨0, 0, 1⟩, ⟨1, 5, 1⟩, ⟨2000000, 7, 2⟩]).map
        (fun p => p.2.score - p.1.score)) ∧
    (quantile [(0 : ℚ), 0, 0, 0, 0, 10] (1 / 4) -
        3 / 2 * max 1 (quantile [(0 : ℚ), 0, 0, 0, 0, 10] (3 / 4) -
          quantile [(0 : ℚ), 0, 0, 0, 0, 10] (1 / 4)) ≤ (3 / 2 : ℚ) ∧
      (3 / 2 : ℚ) ≤ quantile [(0 : ℚ), 0, 0, 0, 0, 10] (3 / 4) +
        3 / 2 * max 1 (quantile [(0 : ℚ), 0, 0, 0, 0, 10] (3 / 4) -
          quantile [(0 : ℚ), 0, 0, 0, 0, 10] (1 / 4))) := by
  have h6 : 6 ≤ ([(0 : ℚ), 0, 0, 0, 0, 10] : List ℚ).length := by norm_num
  have hce1 : ⌈(5 : ℚ) / 4⌉ = 2 := by
    rw [Int.ceil_eq_iff]
    norm_num
  have hce3 : ⌈(15 : ℚ) / 4⌉ = 4 := by
    rw [Int.ceil_eq_iff]
    norm_num
  have hq1 : quantile [(0 : ℚ), 0, 0, 0, 0, 10] (1 / 4) = 0 := by
    norm_num [quantile, interpAt, clamp, List.insertionSort, List.orderedInsert,
      min_def, max_def, hce1, Int.toNat_ofNat, List.getElem_cons_zero,
      List.getElem_cons_succ]
    decide
  have hq3 : quantile [(0 : ℚ), 0, 0, 0, 0, 10] (3 / 4) = 0 := by
    norm_num [quantile, interpAt, clamp, List.insertionSort, List.orderedInsert,
      min_def, max_def, hce3, Int.toNat_ofNat, List.getElem_cons_zero,
      List.getElem_cons_succ]
    have h3 : Int.toNat 3 = 3 := rfl
    have h4 : Int.toNat 4 = 4 := rfl
    simp only [h3, h4]
    norm_num
  have hmem : (3 / 2 : ℚ) ∈ clipDeltas [(0 : ℚ), 0, 0, 0, 0, 10] := by
    have hclip : clipDeltas [(0 : ℚ), 0, 0, 0, 0, 10] = [0, 0, 0, 0, 0, 3 / 2] := by
      rw [clipDeltas, if_pos (by norm_num), hq1, hq3]
      norm_num [clamp, min_def, max_def]
    rw [hclip]
    norm_num
  have hthm := C7_same_session_pairs_and_clipping
    ⟨fun _ => 0, fun _ => 0, fun _ => 0, fun _ => 0, fun _ => 0⟩
    [⟨0, 0, 1⟩, ⟨1, 5, 1⟩, ⟨2000000, 7, 2⟩] [(0 : ℚ), 0, 0, 0, 0, 10] h6
  exact ⟨⟨h6, hmem⟩, hthm.1, hthm.2 (3 / 2) hmem⟩

end Refleks
